import Mathlib

/-!
# Verification of `stac_fastapi/sqlalchemy/serializers.py`

A shallow embedding of the serialization module of `stac-fastapi-sqlalchemy`
(the two converter classes `ItemSerializer` and `CollectionSerializer`, plus
the shared `Serializer.row_to_dict` utility), together with theorems settling
the specification's claims about it.

Modelling conventions:
* Python values are the inductive `PyVal`; dictionaries are association lists
  with Python's insertion-order semantics (`alGet`, `alSet`, `alRemove`).
* Python exceptions surface as `Except PyErr`; `KeyError`, `TypeError`,
  `AttributeError` and `ValueError` are the cases the module can raise.
* Timezone-aware instants (`datetime.datetime`) are the record `DT`; the
  external helpers `rfc3339_str_to_datetime` (from `stac_fastapi.types.rfc3339`,
  raises `ValueError` on non-conforming input), `datetime_to_str` (from
  `pystac.utils`, emits the `Z`-suffixed RFC 3339 form) and Python's
  `datetime.isoformat` (emits the `+00:00`-suffixed form for UTC instants)
  are modelled at their interface: the parser accepts the canonical
  `YYYY-MM-DDTHH:MM:SSZ` rendering.
* The external `json` module is modelled as a retraction pair: `json.dumps v`
  is the distinguished string value `PyVal.jsonText v` (the JSON text encoding
  of `v`, a `str` for `isinstance` purposes), defined exactly on
  JSON-serializable values, and `json.loads` maps it back to `v`.
* `now_to_rfc3339_str()` reads the wall clock, so the embedding takes the
  current instant `now : DT` as an explicit parameter; likewise the
  `Settings.get().indexed_fields` configuration singleton is passed as an
  explicit `settings : List String` parameter.
* In-place mutation of the caller's input dictionary (the aliasing through
  `properties = stac_data["properties"]`) is rendered by state passing:
  `ItemSerializer.stac_to_db` returns both the constructed row and the
  post-call value of the caller's argument.
-/

/-- A timezone-aware UTC instant, as `datetime.datetime` carries it here:
calendar fields only (the module never does date arithmetic). -/
structure DT where
  y : Nat
  mo : Nat
  d : Nat
  hh : Nat
  mi : Nat
  ss : Nat
deriving DecidableEq, Repr

/-- Order key for instants: lexicographic by calendar field (fields are
in-range for every value this module produces, so this is the instant order). -/
def DT.key (t : DT) : Nat :=
  ((((t.y * 13 + t.mo) * 32 + t.d) * 24 + t.hh) * 60 + t.mi) * 60 + t.ss

/-- The Python exceptions this module can raise. -/
inductive PyErr where
  | keyError (k : String)
  | typeError
  | attributeError (a : String)
  | valueError
deriving DecidableEq, Repr

/-- Python runtime values, as this module manipulates them.
`jsonText v` is a `str` holding the `json.dumps` encoding of `v`;
`wkb v` is a `geoalchemy2.WKBElement` whose decoded shape has
`__geo_interface__ = v`; `obj fs` is a typed object (pystac / stac_pydantic
record, provider, link, ...) whose attributes are `fs` and whose
`to_dict()` / `dict(...)` rendering is the plain dict of `fs`. -/
inductive PyVal where
  | none
  | bool (b : Bool)
  | int (n : Int)
  | float (q : ℚ)
  | str (s : String)
  | dt (t : DT)
  | list (xs : List PyVal)
  | dict (xs : List (String × PyVal))
  | jsonText (v : PyVal)
  | wkb (v : PyVal)
  | obj (fs : List (String × PyVal))
deriving Repr

/-- Association-list lookup: Python `d[k]` hit, first binding wins. -/
def alGet : List (String × PyVal) → String → Option PyVal
  | [], _ => Option.none
  | (k, v) :: r, k₀ => if k₀ = k then some v else alGet r k₀

/-- Association-list update: Python `d[k] = v` — replace in place, else append. -/
def alSet : List (String × PyVal) → String → PyVal → List (String × PyVal)
  | [], k, v => [(k, v)]
  | (k₀, v₀) :: r, k, v => if k = k₀ then (k, v) :: r else (k₀, v₀) :: alSet r k v

/-- Association-list removal: Python `d.pop(k, default)`. -/
def alRemove : List (String × PyVal) → String → List (String × PyVal)
  | [], _ => []
  | (k₀, v₀) :: r, k => if k = k₀ then r else (k₀, v₀) :: alRemove r k

/-- Python `k in d`. -/
def alHas (xs : List (String × PyVal)) (k : String) : Bool :=
  (alGet xs k).isSome

/-- Python truthiness (`if value:`) for the values at play. -/
def pyTruthy : PyVal → Bool
  | .none => false
  | .bool b => b
  | .int n => n ≠ 0
  | .float q => q ≠ 0
  | .str s => s ≠ ""
  | .dt _ => true
  | .list xs => !xs.isEmpty
  | .dict xs => !xs.isEmpty
  | .jsonText _ => true
  | .wkb _ => true
  | .obj _ => true

mutual
/-- Whether `json.dumps` accepts the value (`TypeError` otherwise):
scalars and strings do, datetimes / WKB elements / typed objects do not,
containers recursively. -/
def jsonSerializable : PyVal → Bool
  | .none => true
  | .bool _ => true
  | .int _ => true
  | .float _ => true
  | .str _ => true
  | .dt _ => false
  | .list xs => jsonSerializableL xs
  | .dict xs => jsonSerializableP xs
  | .jsonText _ => true
  | .wkb _ => false
  | .obj _ => false

def jsonSerializableL : List PyVal → Bool
  | [] => true
  | x :: r => jsonSerializable x && jsonSerializableL r

def jsonSerializableP : List (String × PyVal) → Bool
  | [] => true
  | (_, v) :: r => jsonSerializable v && jsonSerializableP r
end

/-- `json.dumps`: the JSON text of `v`, or `TypeError` when `v` is not
JSON-serializable. -/
def jsonDumps (v : PyVal) : Except PyErr PyVal :=
  if jsonSerializable v then .ok (.jsonText v) else .error .typeError

/-- `json.loads` applied to the values this module feeds it: it inverts
`json.dumps`; on any other string the model reports `ValueError`
(the module only ever parses text it produced itself). -/
def jsonLoads : PyVal → Except PyErr PyVal
  | .jsonText v => .ok v
  | .str _ => .error .valueError
  | _ => .error .typeError

/-- Python `v[k]` for a string key: dict lookup (`KeyError` on a missing key),
`TypeError` on a non-subscriptable value. -/
def pySubscript (v : PyVal) (k : String) : Except PyErr PyVal :=
  match v with
  | .dict xs =>
    match alGet xs k with
    | some w => .ok w
    | Option.none => .error (.keyError k)
  | _ => .error .typeError

/-- Python `v[k] = w`: in-place dict update, rendered functionally. -/
def pySetItem (v : PyVal) (k : String) (w : PyVal) : Except PyErr PyVal :=
  match v with
  | .dict xs => .ok (.dict (alSet xs k w))
  | _ => .error .typeError

/-- Python `v.get(k)` (`None` default). -/
def pyGetD (v : PyVal) (k : String) : Except PyErr PyVal :=
  match v with
  | .dict xs =>
    match alGet xs k with
    | some w => .ok w
    | Option.none => .ok .none
  | _ => .error (.attributeError "get")

/-- Exact-type check `type(v) is dict`. -/
def pyIsDict : PyVal → Bool
  | .dict _ => true
  | _ => false

/-- Attribute access `v.name` on a typed object; anything else lacks the
record attributes this module reads. -/
def pyGetAttr (v : PyVal) (a : String) : Except PyErr PyVal :=
  match v with
  | .obj fs =>
    match alGet fs a with
    | some w => .ok w
    | Option.none => .error (.attributeError a)
  | _ => .error (.attributeError a)

/-- Method call `v.to_dict()` (pystac records and providers expose it;
plain values do not). -/
def pyToDict (v : PyVal) : Except PyErr PyVal :=
  match v with
  | .obj fs => .ok (.dict fs)
  | _ => .error (.attributeError "to_dict")

/-- Python `dict(v)`: identity on dicts; a pydantic model iterates as
(field, value) pairs, so `dict(model)` is its field mapping. -/
def pyDictOf (v : PyVal) : Except PyErr (List (String × PyVal)) :=
  match v with
  | .dict xs => .ok xs
  | .obj fs => .ok fs
  | _ => .error .typeError

/-- `isinstance(v, str)`: both plain strings and JSON-text strings are `str`. -/
def pyIsStr : PyVal → Bool
  | .str _ => true
  | .jsonText _ => true
  | _ => false

/-- Python `float(x)` on the values a bbox can hold. String parsing is out of
model scope (reported as `ValueError`); numbers and booleans convert. -/
def pyFloat : PyVal → Except PyErr PyVal
  | .int n => .ok (.float (n : ℚ))
  | .float q => .ok (.float q)
  | .bool b => .ok (.float (if b then 1 else 0))
  | .str _ => .error .valueError
  | _ => .error .typeError

/-- Digit value of a character, if it is a decimal digit. -/
def digitVal (c : Char) : Option Nat :=
  if c.isDigit then some (c.toNat - 48) else Option.none

/-- `stac_fastapi.types.rfc3339.rfc3339_str_to_datetime`, modelled on the
canonical `YYYY-MM-DDTHH:MM:SSZ` rendering (other RFC 3339 shapes are outside
the model and report `ValueError`, as the real helper does on bad input). -/
def rfc3339_str_to_datetime (s : String) : Except PyErr DT :=
  match s.toList with
  | [a1, a2, a3, a4, '-', b1, b2, '-', c1, c2, 'T',
     d1, d2, ':', e1, e2, ':', f1, f2, 'Z'] =>
    match digitVal a1, digitVal a2, digitVal a3, digitVal a4,
          digitVal b1, digitVal b2, digitVal c1, digitVal c2,
          digitVal d1, digitVal d2, digitVal e1, digitVal e2,
          digitVal f1, digitVal f2 with
    | some a1, some a2, some a3, some a4, some b1, some b2, some c1, some c2,
      some d1, some d2, some e1, some e2, some f1, some f2 =>
      .ok ⟨a1 * 1000 + a2 * 100 + a3 * 10 + a4, b1 * 10 + b2, c1 * 10 + c2,
           d1 * 10 + d2, e1 * 10 + e2, f1 * 10 + f2⟩
    | _, _, _, _, _, _, _, _, _, _, _, _, _, _ => .error .valueError
  | _ => .error .valueError

/-- Zero-pad to two digits. -/
def pad2 (n : Nat) : String :=
  (if n < 10 then "0" else "") ++ toString n

/-- Zero-pad to four digits. -/
def pad4 (n : Nat) : String :=
  (if n < 10 then "000" else if n < 100 then "00" else if n < 1000 then "0" else "")
    ++ toString n

/-- The `Z`-suffixed RFC 3339 rendering of an instant — what
`pystac.utils.datetime_to_str` and `now_to_rfc3339_str` emit. -/
def rfc3339Fmt (t : DT) : String :=
  pad4 t.y ++ "-" ++ pad2 t.mo ++ "-" ++ pad2 t.d ++ "T" ++
    pad2 t.hh ++ ":" ++ pad2 t.mi ++ ":" ++ pad2 t.ss ++ "Z"

/-- `pystac.utils.datetime_to_str`: isoformat with the UTC offset rewritten to
`Z`. Applied to a non-datetime (pystac accesses `.isoformat`) it raises. -/
def datetime_to_str (v : PyVal) : Except PyErr PyVal :=
  match v with
  | .dt t => .ok (.str (rfc3339Fmt t))
  | _ => .error (.attributeError "isoformat")

/-- Python `datetime.isoformat()` on a UTC-aware instant: the
`+00:00`-suffixed rendering. -/
def isoformatUtc (t : DT) : String :=
  pad4 t.y ++ "-" ++ pad2 t.mo ++ "-" ++ pad2 t.d ++ "T" ++
    pad2 t.hh ++ ":" ++ pad2 t.mi ++ ":" ++ pad2 t.ss ++ "+00:00"

/-- `stac_fastapi.types.rfc3339.now_to_rfc3339_str`, at the explicit current
instant `now`. -/
def now_to_rfc3339_str (now : DT) : String :=
  rfc3339Fmt now

/-- The value of a `PyVal.dict`, `TypeError` otherwise (used where the source
has already established the value is a dict through a prior subscript). -/
def asDictE : PyVal → Except PyErr (List (String × PyVal))
  | .dict xs => .ok xs
  | _ => .error .typeError

/-- The characters after the last `':'` (the whole input when there is
none). -/
def lastSegAux (cur : List Char) : List Char → List Char
  | [] => cur.reverse
  | c :: r => if c = ':' then lastSegAux [] r else lastSegAux (c :: cur) r

/-- `field.split(":")[-1]`: the trailing segment of a (possibly
extension-namespaced) indexed-field name. -/
def lastSeg (f : String) : String :=
  String.mk (lastSegAux [] f.toList)

/-- Coerce an identifier value into link-path text (identifiers are strings
in every record this module builds links for). -/
def pyStrOf : PyVal → String
  | .str s => s
  | _ => ""

/-- Modelled from the spec: `stac_fastapi.types.links.ItemLinks.create_links`
(external module) — the canonical self/parent/collection hyperlinks derived
from `base_url`, `collection_id` and `item_id`. -/
def ItemLinks.create_links (collection_id item_id : PyVal) (base_url : String) :
    List PyVal :=
  [.dict [("rel", .str "self"), ("type", .str "application/geo+json"),
     ("href", .str (base_url ++ "/collections/" ++ pyStrOf collection_id
        ++ "/items/" ++ pyStrOf item_id))],
   .dict [("rel", .str "parent"), ("type", .str "application/json"),
     ("href", .str (base_url ++ "/collections/" ++ pyStrOf collection_id))],
   .dict [("rel", .str "collection"), ("type", .str "application/json"),
     ("href", .str (base_url ++ "/collections/" ++ pyStrOf collection_id))]]

/-- Modelled from the spec: `stac_fastapi.types.links.CollectionLinks.create_links`
(external module) — the canonical self/parent hyperlinks for a collection. -/
def CollectionLinks.create_links (collection_id : PyVal) (base_url : String) :
    List PyVal :=
  [.dict [("rel", .str "self"), ("type", .str "application/json"),
     ("href", .str (base_url ++ "/collections/" ++ pyStrOf collection_id))],
   .dict [("rel", .str "parent"), ("type", .str "application/json"),
     ("href", .str base_url)]]

/-- Modelled from the spec: `urljoin` — a relative href is rehydrated into an
absolute one against the base URL; an absolute href passes through. -/
def urljoinModel (base_url href : String) : String :=
  if href.startsWith "http" then href else base_url ++ href

/-- Modelled from the spec: `stac_fastapi.types.links.resolve_links`
(external module) — each persisted link dict has its `href` resolved against
`base_url`. -/
def resolve_links (links : PyVal) (base_url : String) :
    Except PyErr (List PyVal) :=
  match links with
  | .list ls => resolveLoop ls
  | _ => .error .typeError
where
  resolveLoop : List PyVal → Except PyErr (List PyVal)
    | [] => .ok []
    | l :: rest =>
      match l with
      | .dict xs =>
        match alGet xs "href" with
        | some (.str h) => do
            let r ← resolveLoop rest
            .ok (.dict (alSet xs "href" (.str (urljoinModel base_url h))) :: r)
        | _ => .error (.keyError "href")
      | _ => .error .typeError

/-- The `database.Item` row. The base columns are the ones the serializer
reads and writes; the column set itself is modelled from the spec (the
`models.database` module is not under `src/`): flattened columns mirroring
the record, plus the promoted indexed-field columns (`indexed`). A column
never assigned holds SQL NULL, i.e. `PyVal.none` (so `links`, which
`stac_to_db` never passes, is `none` on every row it builds). -/
structure DbItem where
  id : PyVal
  collection_id : PyVal
  stac_version : PyVal
  stac_extensions : PyVal
  geometry : PyVal
  bbox : PyVal
  properties : PyVal
  assets : PyVal
  links : PyVal
  indexed : List (String × PyVal)
deriving Repr

/-- `getattr(db_model, name)` on an Item row: base columns by name, then the
promoted indexed-field columns. -/
def DbItem.getcol (r : DbItem) (name : String) : Except PyErr PyVal :=
  if name = "id" then .ok r.id
  else if name = "collection_id" then .ok r.collection_id
  else if name = "stac_version" then .ok r.stac_version
  else if name = "stac_extensions" then .ok r.stac_extensions
  else if name = "geometry" then .ok r.geometry
  else if name = "bbox" then .ok r.bbox
  else if name = "properties" then .ok r.properties
  else if name = "assets" then .ok r.assets
  else if name = "links" then .ok r.links
  else match alGet r.indexed name with
    | some v => .ok v
    | Option.none => .error (.attributeError name)

/-- The `"datetime"` parse step of the indexed-fields extraction
(serializers.py lines 112–113): an RFC 3339 string value of the `"datetime"`
field is parsed into an instant; any other field or value passes through. -/
def dtParseStep (f : String) (v : PyVal) : Except PyErr PyVal :=
  if f = "datetime" then
    match v with
    | .str s => (rfc3339_str_to_datetime s).map PyVal.dt
    | w => .ok w
  else .ok v

/-- The input normalization of `ItemSerializer.stac_to_db` (serializers.py
lines 105–106): a non-dict input is converted by its `to_dict()` method. -/
def normalizeInput (v : PyVal) : Except PyErr PyVal :=
  if pyIsDict v then .ok v else pyToDict v

/-- `if geometry is not None: geometry = json.dumps(geometry)`
(serializers.py lines 123–125). -/
def dumpGeometry : PyVal → Except PyErr PyVal
  | .none => .ok .none
  | g => jsonDumps g

/-- Serializers.py lines 127–135: a `datetime.datetime` value under `key` in
the properties dict is replaced in place — hence also through the
`stac_data` alias — by its `isoformat()` string; other values are left
alone. Returns the (possibly updated) properties and `stac_data`. -/
def stringifyDtEntry (key : String) (properties sd v : PyVal) :
    Except PyErr (PyVal × PyVal) :=
  match v with
  | .dt t => do
      let p ← pySetItem properties key (.str (isoformatUtc t))
      let sd ← pySetItem sd "properties" p
      .ok (p, sd)
  | _ => .ok (properties, sd)

/-- The body of the `for field in Settings.get().indexed_fields:` loop of
`ItemSerializer.stac_to_db` (serializers.py lines 109–121), iterated over the
configured field list. Each pass extracts `stac_data["properties"][field]`
(parsing an RFC 3339 string when the field is `"datetime"`), stages it under
the trailing segment of the field name, and — inside the loop, as in the
source — defaults `properties["created"]` to now when absent and refreshes
`properties["updated"]` to now. Returns the staged `indexed_fields` mapping
and the (mutated) `stac_data`. -/
def ItemSerializer.indexedLoop (now : DT) :
    List String → PyVal → List (String × PyVal) →
    Except PyErr (List (String × PyVal) × PyVal)
  | [], sd, acc => .ok (acc, sd)
  | f :: rest, sd, acc => do
    let props ← pySubscript sd "properties"
    let v ← pySubscript props f
    let v ← dtParseStep f v
    let acc := alSet acc (lastSeg f) v
    let ps ← asDictE props
    let ns := PyVal.str (now_to_rfc3339_str now)
    let ps := if alHas ps "created" then ps else alSet ps "created" ns
    let ps := alSet ps "updated" ns
    let sd ← pySetItem sd "properties" (.dict ps)
    ItemSerializer.indexedLoop now rest sd acc

/-- The body of `ItemSerializer.stac_to_db` after input normalization
(serializers.py lines 108–148), over the already-dict `stac_data`. Returns
the constructed row together with the final value of that dict (which the
source mutates in place through the `properties` alias). -/
def ItemSerializer.stacToDbCore (settings : List String) (now : DT)
    (sd0 : PyVal) (exclude_geometry : Bool) :
    Except PyErr (DbItem × PyVal) := do
  let (indexed_fields, sd) ← ItemSerializer.indexedLoop now settings sd0 []
  let geometry ← pySubscript sd "geometry"
  let geometry ← dumpGeometry geometry
  let properties ← pySubscript sd "properties"
  let dtv ← pySubscript properties "datetime"
  let (properties, sd) ← stringifyDtEntry "datetime" properties sd dtv
  let crv ← pySubscript properties "created"
  let (properties, sd) ← stringifyDtEntry "created" properties sd crv
  let idv ← pySubscript sd "id"
  let coll ← pySubscript sd "collection"
  let sv ← pySubscript sd "stac_version"
  let se ← pyGetD sd "stac_extensions"
  let bb ← pyGetD sd "bbox"
  let assets ← pySubscript sd "assets"
  let row : DbItem :=
    { id := idv, collection_id := coll, stac_version := sv,
      stac_extensions := se, geometry := geometry, bbox := bb,
      properties := properties, assets := assets, links := PyVal.none,
      indexed := indexed_fields }
  pure (row, sd)

/-- `ItemSerializer.stac_to_db` (serializers.py lines 98–148). Returns the
constructed row together with the post-call value of the caller's
`stac_data` argument: a dict argument is the very object the body mutates,
while a typed object is first copied by `to_dict()` (pystac builds fresh
dicts), so the caller's object comes back unchanged. -/
def ItemSerializer.stac_to_db (settings : List String) (now : DT)
    (stac_data : PyVal) (exclude_geometry : Bool) :
    Except PyErr (DbItem × PyVal) := do
  let sd ← normalizeInput stac_data
  let (row, sdF) ← ItemSerializer.stacToDbCore settings now sd exclude_geometry
  pure (row, if pyIsDict stac_data then sdF else stac_data)

/-- Mapping each PyVal of a list through a fallible function
(a Python list comprehension whose body can raise). -/
def exceptMap (f : PyVal → Except PyErr PyVal) :
    List PyVal → Except PyErr (List PyVal)
  | [] => .ok []
  | x :: r => do
    let y ← f x
    let ys ← exceptMap f r
    .ok (y :: ys)

/-- `db_model.properties.copy()` (serializers.py line 52): a fresh dict with
the same entries; a non-dict blob has no `copy` method. -/
def copyProps : PyVal → Except PyErr (List (String × PyVal))
  | .dict xs => .ok xs
  | _ => .error (.attributeError "copy")

/-- The `"datetime"` formatting step of the read-path overlay
(serializers.py lines 57–58). -/
def dtFormatStep (f : String) (v : PyVal) : Except PyErr PyVal :=
  if f = "datetime" then datetime_to_str v else .ok v

/-- Serializers.py lines 66–68 and 161–163: when the row's persisted links
column is truthy, resolve those links against the base URL and append them
to the synthesized ones. -/
def appendResolved (ls : List PyVal) (links : PyVal) (base_url : String) :
    Except PyErr (List PyVal) :=
  if pyTruthy links then do
    let extra ← resolve_links links base_url
    .ok (ls ++ extra)
  else .ok ls

/-- The WKB geometry decoding step (serializers.py lines 76–77):
`to_shape(...).__geo_interface__` on a WKB element, pass-through otherwise. -/
def decodeWkb : PyVal → PyVal
  | .wkb v => v
  | g => g

/-- The JSON-text geometry decoding step (serializers.py lines 78–79). -/
def loadGeometry (g : PyVal) : Except PyErr PyVal :=
  if pyIsStr g then jsonLoads g else .ok g

/-- The bbox normalization `[float(x) for x in db_model.bbox]` guarded by the
`None` check (serializers.py lines 81–83). -/
def bboxFloats : PyVal → Except PyErr PyVal
  | .none => .ok .none
  | .list xs => do
      let ys ← exceptMap pyFloat xs
      .ok (.list ys)
  | _ => .error .typeError

/-- The `for field in indexed_fields:` overlay loop of
`ItemSerializer.db_to_stac` (serializers.py lines 54–59): read the promoted
column named by the trailing segment of the field name, format the
`"datetime"` column to an RFC 3339 string, and overlay it into the
properties copy. -/
def ItemSerializer.overlayLoop (r : DbItem) :
    List String → List (String × PyVal) → Except PyErr (List (String × PyVal))
  | [], ps => .ok ps
  | f :: rest, ps => do
    let v ← r.getcol (lastSeg f)
    let v ← dtFormatStep f v
    ItemSerializer.overlayLoop r rest (alSet ps f v)

/-- `ItemSerializer.db_to_stac` (serializers.py lines 49–96). -/
def ItemSerializer.db_to_stac (settings : List String) (db_model : DbItem)
    (base_url : String) : Except PyErr PyVal := do
  let ps ← copyProps db_model.properties
  let properties ← ItemSerializer.overlayLoop db_model settings ps
  let item_links :=
    ItemLinks.create_links db_model.collection_id db_model.id base_url
  let item_links ← appendResolved item_links db_model.links base_url
  let stac_extensions :=
    if pyTruthy db_model.stac_extensions then db_model.stac_extensions
    else PyVal.list []
  let geometry := decodeWkb db_model.geometry
  let geometry ← loadGeometry geometry
  let bbox ← bboxFloats db_model.bbox
  pure (.dict [("type", .str "Feature"), ("stac_version", db_model.stac_version),
    ("stac_extensions", stac_extensions), ("id", db_model.id),
    ("collection", db_model.collection_id), ("geometry", geometry),
    ("bbox", bbox), ("properties", .dict properties),
    ("links", .list item_links), ("assets", db_model.assets)])

/-- The `database.Collection` row. Modelled from the spec: the
`models.database` module is not under `src/`; the spec describes the row as
relational columns mirroring the record fields, so
`database.Collection(**kwargs)` stores the keyword mapping as the row's
column values, and a column never assigned reads back as NULL (`none`). -/
structure DbCollection where
  fields : List (String × PyVal)
deriving Repr

/-- `getattr(db_model, name)` on a Collection row: the column value, or NULL
for a column the constructor was never given. -/
def DbCollection.get (r : DbCollection) (k : String) : PyVal :=
  (alGet r.fields k).getD .none

/-- The `for interval in extent.temporal.interval:` loop of
`CollectionSerializer.stac_to_db` (serializers.py lines 199–208): a falsy
interval is skipped; a truthy one has each instant endpoint stringified by
`isoformat()` and nulls passed through. -/
def CollectionSerializer.tempLoop : List PyVal → Except PyErr (List PyVal)
  | [] => .ok []
  | i :: rest =>
    if pyTruthy i then
      match i with
      | .list ds => do
          let s := ds.map (fun d =>
            match d with
            | .dt t => PyVal.str (isoformatUtc t)
            | x => x)
          let r ← CollectionSerializer.tempLoop rest
          .ok (.list s :: r)
      | _ => .error .typeError
    else CollectionSerializer.tempLoop rest

/-- The iteration over `extent.temporal.interval`: a non-list value raises
`TypeError`. -/
def CollectionSerializer.iterIntervals : PyVal → Except PyErr (List PyVal)
  | .list ivs => CollectionSerializer.tempLoop ivs
  | _ => .error .typeError

/-- The extent flattening of `CollectionSerializer.stac_to_db`
(serializers.py lines 191–210): `{"spatial": {"bbox": extent.spatial.bbox},
"temporal": {"interval": [...]}}`. -/
def CollectionSerializer.extentDict (extent : PyVal) : Except PyErr PyVal := do
  let sp ← pyGetAttr extent "spatial"
  let sb ← pyGetAttr sp "bbox"
  let tp ← pyGetAttr extent "temporal"
  let ti ← pyGetAttr tp "interval"
  let tis ← CollectionSerializer.iterIntervals ti
  .ok (.dict [("spatial", .dict [("bbox", sb)]),
              ("temporal", .dict [("interval", .list tis)])])

/-- `[Provider.to_dict() for Provider in providers]`
(serializers.py line 214). -/
def CollectionSerializer.providersLoop : List PyVal → Except PyErr (List PyVal)
  | [] => .ok []
  | p :: rest => do
    let d ← pyToDict p
    let r ← CollectionSerializer.providersLoop rest
    .ok (d :: r)

/-- The links comprehension of `CollectionSerializer.stac_to_db`
(serializers.py lines 230–238): each link object reduced to its
`{href, rel, type, title}` mapping. -/
def CollectionSerializer.linksLoop : List PyVal → Except PyErr (List PyVal)
  | [] => .ok []
  | l :: rest => do
    let h ← pyGetAttr l "href"
    let re ← pyGetAttr l "rel"
    let ty ← pyGetAttr l "type"
    let ttl ← pyGetAttr l "title"
    let r ← CollectionSerializer.linksLoop rest
    .ok (.dict [("href", h), ("rel", re), ("type", ty), ("title", ttl)] :: r)

/-- `[Provider.to_dict() for Provider in providers]` including the iteration
itself (serializers.py line 214): a non-iterable `providers` value — `None`
in particular — raises `TypeError`. -/
def CollectionSerializer.iterProviders : PyVal → Except PyErr (List PyVal)
  | .list ps => CollectionSerializer.providersLoop ps
  | _ => .error .typeError

/-- `summaries.items()` (serializers.py line 221): a dict yields its pairs;
anything else — `None` in particular — lacks the method. -/
def CollectionSerializer.summariesItems : PyVal → Except PyErr (List (String × PyVal))
  | .dict xs => .ok xs
  | _ => .error (.attributeError "items")

/-- The summaries-value conversion (serializers.py lines 219–222):
`value.to_dict() if hasattr(value, "to_dict") else value`. -/
def CollectionSerializer.serializeSummaries (xs : List (String × PyVal)) :
    List (String × PyVal) :=
  xs.map (fun p =>
    (p.1, match p.2 with
          | .obj fs => PyVal.dict fs
          | v => v))

/-- The iteration over `stac_data.links.root` (serializers.py lines 230–238):
a non-list root raises `TypeError`. -/
def CollectionSerializer.iterLinks : PyVal → Except PyErr (List PyVal)
  | .list ls => CollectionSerializer.linksLoop ls
  | _ => .error .typeError

/-- `CollectionSerializer.stac_to_db` (serializers.py lines 187–262).
Note the source's last step: `json.dumps(stac_data)` is attempted inside a
`try`, a `TypeError` is caught and printed, and the row is constructed
regardless — `_serializable` records the check's outcome, which the source
discards. -/
def CollectionSerializer.stac_to_db (stac_data : PyVal)
    (exclude_geometry : Bool) : Except PyErr DbCollection := do
  let extent ← pyGetAttr stac_data "extent"
  let extent_dict ← CollectionSerializer.extentDict extent
  let providers ← pyGetAttr stac_data "providers"
  let lis ← CollectionSerializer.iterProviders providers
  let summaries ← pyGetAttr stac_data "summaries"
  let sumPairs ← CollectionSerializer.summariesItems summaries
  let summaries_serialized := CollectionSerializer.serializeSummaries sumPairs
  let links ← pyGetAttr stac_data "links"
  let root ← pyGetAttr links "root"
  let links_dict ← CollectionSerializer.iterLinks root
  let bs ← pyDictOf stac_data
  let bs := alSet bs "providers" (.list lis)
  let bs := alSet bs "extent" extent_dict
  let bs := alSet bs "links" (.list links_dict)
  let bs := alSet bs "summaries" (.dict summaries_serialized)
  let bs := alRemove bs "assets"
  let _serializable := jsonSerializable (.dict bs)
  pure ⟨bs⟩

/-- `CollectionSerializer.db_to_stac` (serializers.py lines 154–186):
mandatory fields always present, the optional ones (`stac_extensions`,
`title`, `keywords`, `providers`, `summaries`) inserted only when the row
column is truthy. -/
def CollectionSerializer.db_to_stac (db_model : DbCollection)
    (base_url : String) : Except PyErr PyVal := do
  let collection_links := CollectionLinks.create_links (db_model.get "id") base_url
  let collection_links ← appendResolved collection_links (db_model.get "links") base_url
  let collection := [("type", PyVal.str "Collection"), ("id", db_model.get "id"),
    ("stac_version", db_model.get "stac_version"),
    ("description", db_model.get "description"),
    ("license", db_model.get "license"), ("extent", db_model.get "extent"),
    ("links", PyVal.list collection_links)]
  let collection := if pyTruthy (db_model.get "stac_extensions") then
      alSet collection "stac_extensions" (db_model.get "stac_extensions")
    else collection
  let collection := if pyTruthy (db_model.get "title") then
      alSet collection "title" (db_model.get "title")
    else collection
  let collection := if pyTruthy (db_model.get "keywords") then
      alSet collection "keywords" (db_model.get "keywords")
    else collection
  let collection := if pyTruthy (db_model.get "providers") then
      alSet collection "providers" (db_model.get "providers")
    else collection
  let collection := if pyTruthy (db_model.get "summaries") then
      alSet collection "summaries" (db_model.get "summaries")
    else collection
  pure (.dict collection)

/-- `Serializer.row_to_dict` (serializers.py lines 35–43), over the row's
column/value sequence (the column iteration order comes from the table
definition in the absent `models.database` module; the spec describes the
utility as flattening a storage row into a mapping of column name to value):
a column's value is kept exactly when `if value:` holds. -/
def Serializer.row_to_dict : List (String × PyVal) → List (String × PyVal)
  | [] => []
  | (k, v) :: r =>
    if pyTruthy v then (k, v) :: Serializer.row_to_dict r
    else Serializer.row_to_dict r

/-- RFC 3339 normalization, as the spec's round-trip property uses it:
parse the timestamp string and re-render it canonically. -/
def rfc3339Normalize (s : String) : Except PyErr String :=
  (rfc3339_str_to_datetime s).map rfc3339Fmt

/-- The base column names of the `database.Item` row (every other attribute
the serializer reads is a promoted indexed-field column). -/
def itemBaseColumns : List String :=
  ["id", "collection_id", "stac_version", "stac_extensions", "geometry",
   "bbox", "properties", "assets", "links"]

/-! ## Concrete inputs used by witnesses and counterexamples -/

/-- A fixed current instant for concrete runs. -/
def wNow : DT := ⟨2024, 5, 17, 12, 0, 0⟩

/-- A GeoJSON Point geometry. -/
def wGeom : PyVal :=
  .dict [("type", .str "Point"), ("coordinates", .list [.float 1, .float 2])]

/-- A valid Item payload, as the bulk-ingest endpoint would deliver it
(plain mapping), with `datetime` and `created` as RFC 3339 strings. -/
def wItem : List (String × PyVal) :=
  [("type", .str "Feature"), ("stac_version", .str "1.0.0"),
   ("id", .str "a"), ("collection", .str "c1"),
   ("geometry", wGeom),
   ("bbox", .list [.float 1, .float 2, .float 1, .float 2]),
   ("properties", .dict
     [("datetime", .str "2020-01-01T00:00:00Z"),
      ("created", .str "2019-01-01T00:00:00Z"),
      ("eo:cloud_cover", .int 10)]),
   ("assets", .dict [])]

/-- The same Item except that its `created` timestamp lies in the future of
`wNow`. -/
def wItemFutureCreated : List (String × PyVal) :=
  [("type", .str "Feature"), ("stac_version", .str "1.0.0"),
   ("id", .str "a"), ("collection", .str "c1"),
   ("geometry", PyVal.none),
   ("properties", .dict
     [("datetime", .str "2020-01-01T00:00:00Z"),
      ("created", .str "2030-01-01T00:00:00Z")]),
   ("assets", .dict [])]

/-- A valid Item payload without `created`/`updated` entries. -/
def wItemNoCreated : List (String × PyVal) :=
  [("type", .str "Feature"), ("stac_version", .str "1.0.0"),
   ("id", .str "a"), ("collection", .str "c1"),
   ("geometry", PyVal.none),
   ("properties", .dict [("datetime", .str "2020-01-01T00:00:00Z")]),
   ("assets", .dict [])]

/-- A typed Collection's extent attribute: one spatial bbox, one open
temporal interval. -/
def wExtent : PyVal :=
  .obj [("spatial", .obj [("bbox",
           .list [.list [.float 0, .float 0, .float 1, .float 1]])]),
        ("temporal", .obj [("interval",
           .list [.list [PyVal.none, PyVal.none]])])]

/-- A typed Collection's links attribute (a pydantic root model holding one
link object). -/
def wLinks : PyVal :=
  .obj [("root", .list [.obj
    [("href", .str "http://x"), ("rel", .str "self"),
     ("type", .str "application/json"), ("title", PyVal.none)]])]

/-- The field mapping of a valid typed Collection record. -/
def wCollection : List (String × PyVal) :=
  [("type", .str "Collection"), ("id", .str "c1"),
   ("stac_version", .str "1.0.0"), ("description", .str "d"),
   ("license", .str "MIT"), ("extent", wExtent),
   ("providers", .list [.obj [("name", .str "p")]]),
   ("summaries", .dict [("s", .dict [("minimum", .int 0)])]),
   ("links", wLinks), ("assets", .dict [])]

/-- A Collection whose summaries hold a raw `datetime.datetime` value — a
mapping that is not JSON-serializable and has no `to_dict` conversion. -/
def wBadCollection : List (String × PyVal) :=
  [("type", .str "Collection"), ("id", .str "c1"),
   ("stac_version", .str "1.0.0"), ("description", .str "d"),
   ("license", .str "MIT"), ("extent", wExtent),
   ("providers", .list [.obj [("name", .str "p")]]),
   ("summaries", .dict [("x", .dt ⟨2020, 1, 1, 0, 0, 0⟩)]),
   ("links", wLinks), ("assets", .dict [])]

/-- A Collection record whose optional `providers` attribute is null. -/
def wCollectionNullProviders : List (String × PyVal) :=
  [("type", .str "Collection"), ("id", .str "c1"),
   ("stac_version", .str "1.0.0"), ("description", .str "d"),
   ("license", .str "MIT"), ("extent", wExtent),
   ("providers", PyVal.none),
   ("summaries", .dict [("s", .dict [("minimum", .int 0)])]),
   ("links", wLinks), ("assets", .dict [])]

/-- What the caller's `wItemNoCreated` dict looks like after
`ItemSerializer.stac_to_db` returns (at `wNow`, indexed fields
`["datetime"]`): its properties have gained `created` and `updated`. -/
def wPostNoCreated : List (String × PyVal) :=
  [("type", .str "Feature"), ("stac_version", .str "1.0.0"),
   ("id", .str "a"), ("collection", .str "c1"),
   ("geometry", PyVal.none),
   ("properties", .dict
     [("datetime", .str "2020-01-01T00:00:00Z"),
      ("created", .str "2024-05-17T12:00:00Z"),
      ("updated", .str "2024-05-17T12:00:00Z")]),
   ("assets", .dict [])]

/-- A Collection row whose optional columns are all NULL or empty. -/
def wBareCollectionRow : DbCollection :=
  ⟨[("id", .str "c1"), ("stac_version", .str "1.0.0"),
    ("description", .str "d"), ("license", .str "MIT"),
    ("extent", .dict []), ("providers", PyVal.none),
    ("title", PyVal.none), ("keywords", .list []),
    ("summaries", .dict [])]⟩

/-! ## Basic lemmas about the Python-dict model and the `Except` monad -/

theorem ok_bind {α β : Type} (a : α) (f : α → Except PyErr β) :
    (Except.ok a >>= f) = f a := rfl

theorem error_bind {α β : Type} (e : PyErr) (f : α → Except PyErr β) :
    ((Except.error e : Except PyErr α) >>= f) = .error e := rfl

theorem alGet_alSet_self (xs : List (String × PyVal)) (k : String) (v : PyVal) :
    alGet (alSet xs k v) k = some v := by
  induction xs with
  | nil => simp [alSet, alGet]
  | cons hd tl ih =>
    obtain ⟨k₀, v₀⟩ := hd
    by_cases h : k = k₀
    · simp [alSet, alGet, h]
    · simp [alSet, alGet, h, ih]

theorem alGet_alSet_ne (xs : List (String × PyVal)) (k k' : String) (v : PyVal)
    (h : k' ≠ k) : alGet (alSet xs k v) k' = alGet xs k' := by
  induction xs with
  | nil => simp [alSet, alGet, h]
  | cons hd tl ih =>
    obtain ⟨k₀, v₀⟩ := hd
    by_cases h₀ : k = k₀
    · subst h₀
      simp [alSet, alGet, h]
    · by_cases h₁ : k' = k₀ <;> simp [alSet, alGet, h₀, h₁, ih]

theorem alSet_alSet_same (xs : List (String × PyVal)) (k : String) (v w : PyVal) :
    alSet (alSet xs k v) k w = alSet xs k w := by
  induction xs with
  | nil => simp [alSet]
  | cons hd tl ih =>
    obtain ⟨k₀, v₀⟩ := hd
    by_cases h : k = k₀
    · simp [alSet, h]
    · simp [alSet, h, ih]

theorem alHas_iff (xs : List (String × PyVal)) (k : String) :
    alHas xs k = true ↔ ∃ v, alGet xs k = some v := by
  simp [alHas, Option.isSome_iff_exists]

/-! ## Inversion lemmas for the Python primitives -/

theorem pySubscript_ok_iff (v : PyVal) (k : String) (w : PyVal) :
    pySubscript v k = .ok w ↔ ∃ xs, v = .dict xs ∧ alGet xs k = some w := by
  cases v <;> simp [pySubscript]
  case dict xs => cases h : alGet xs k <;> simp [h, eq_comm]

theorem pySetItem_ok_iff (v : PyVal) (k : String) (w u : PyVal) :
    pySetItem v k w = .ok u ↔ ∃ xs, v = .dict xs ∧ u = .dict (alSet xs k w) := by
  cases v <;> simp [pySetItem, eq_comm]

theorem asDictE_ok_iff (v : PyVal) (xs : List (String × PyVal)) :
    asDictE v = .ok xs ↔ v = .dict xs := by
  cases v <;> simp [asDictE]

theorem pyGetAttr_ok_iff (v : PyVal) (a : String) (w : PyVal) :
    pyGetAttr v a = .ok w ↔ ∃ fs, v = .obj fs ∧ alGet fs a = some w := by
  cases v <;> simp [pyGetAttr]
  case obj fs => cases h : alGet fs a <;> simp [h, eq_comm]

theorem pyGetD_ok_iff (v : PyVal) (k : String) (w : PyVal) :
    pyGetD v k = .ok w ↔
      ∃ xs, v = .dict xs ∧
        (alGet xs k = some w ∨ (alGet xs k = Option.none ∧ w = .none)) := by
  cases v <;> simp [pyGetD]
  case dict xs => cases h : alGet xs k <;> simp [h, eq_comm]

/-! ## Shape of a successful pass of the indexed-fields loop -/

/-- A successful non-empty pass of `ItemSerializer.indexedLoop` touches the
input only at `properties`, and the properties only at `created` (defaulted
to now when absent) and `updated` (refreshed to now). -/
theorem indexedLoop_ok_shape (now : DT) :
    ∀ (settings : List String) (sd : PyVal) (acc acc' : List (String × PyVal))
      (sd' : PyVal),
      settings ≠ [] →
      ItemSerializer.indexedLoop now settings sd acc = .ok (acc', sd') →
      ∃ xs ps psF,
        sd = .dict xs ∧
        alGet xs "properties" = some (.dict ps) ∧
        sd' = .dict (alSet xs "properties" (.dict psF)) ∧
        alGet psF "updated" = some (.str (rfc3339Fmt now)) ∧
        ((alGet ps "created" = Option.none ∧
            alGet psF "created" = some (.str (rfc3339Fmt now))) ∨
          (∃ c, alGet ps "created" = some c ∧ alGet psF "created" = some c)) ∧
        (∀ k, k ≠ "created" → k ≠ "updated" → alGet psF k = alGet ps k) := by
  intro settings
  induction settings with
  | nil => intro sd acc acc' sd' hne; exact absurd rfl hne
  | cons f rest ih =>
    intro sd acc acc' sd' _ hrun
    rw [ItemSerializer.indexedLoop] at hrun
    rcases hsd : pySubscript sd "properties" with e | props <;> rw [hsd] at hrun
    · exact absurd hrun (by simp [error_bind])
    rw [ok_bind] at hrun
    rcases hv : pySubscript props f with e | v <;> rw [hv] at hrun
    · exact absurd hrun (by simp [error_bind])
    rw [ok_bind] at hrun
    obtain ⟨ps, hpropsEq, hpsf⟩ := (pySubscript_ok_iff props f v).mp hv
    subst hpropsEq
    obtain ⟨xs, hsdEq, hget⟩ := (pySubscript_ok_iff sd "properties" _).mp hsd
    subst hsdEq
    rcases hdt : dtParseStep f v with e | v2 <;> rw [hdt] at hrun
    · exact absurd hrun (by simp [error_bind])
    rw [ok_bind] at hrun
    simp only [asDictE, ok_bind, pySetItem] at hrun
    set nv : PyVal := .str (now_to_rfc3339_str now) with hnv
    set ps1 := if alHas ps "created" then ps else alSet ps "created" nv with hps1
    set ps2 := alSet ps1 "updated" nv with hps2
    -- facts about the one-step property update ps → ps2
    have hupd2 : alGet ps2 "updated" = some nv := by
      rw [hps2]; exact alGet_alSet_self _ _ _
    have hcr2 : (alGet ps "created" = Option.none ∧ alGet ps2 "created" = some nv) ∨
        (∃ c, alGet ps "created" = some c ∧ alGet ps2 "created" = some c) := by
      by_cases hc : alHas ps "created" = true
      · obtain ⟨c, hcv⟩ := (alHas_iff ps "created").mp hc
        right
        refine ⟨c, hcv, ?_⟩
        rw [hps2, alGet_alSet_ne _ _ _ _ (by decide), hps1, if_pos hc]
        exact hcv
      · left
        have hnone : alGet ps "created" = Option.none := by
          rcases h : alGet ps "created" with _ | c
          · rfl
          · exact absurd ((alHas_iff ps "created").mpr ⟨c, h⟩) hc
        refine ⟨hnone, ?_⟩
        rw [hps2, alGet_alSet_ne _ _ _ _ (by decide), hps1, if_neg hc]
        exact alGet_alSet_self _ _ _
    have hoth2 : ∀ k, k ≠ "created" → k ≠ "updated" → alGet ps2 k = alGet ps k := by
      intro k hkc hku
      rw [hps2, alGet_alSet_ne _ _ _ _ hku, hps1]
      by_cases hc : alHas ps "created" = true
      · rw [if_pos hc]
      · rw [if_neg hc, alGet_alSet_ne _ _ _ _ hkc]
    cases rest with
    | nil =>
      rw [ItemSerializer.indexedLoop] at hrun
      injection hrun with hpair
      injection hpair with hacc hsd'
      exact ⟨xs, ps, ps2, rfl, hget, hsd'.symm, hupd2, hcr2, hoth2⟩
    | cons g rest' =>
      obtain ⟨xs1, psA, psF, heq1, hget1, hsd'eq, hupd, hcreated, hother⟩ :=
        ih _ _ _ _ (by simp) hrun
      injection heq1 with hxs1
      have hpsA : psA = ps2 := by
        rw [← hxs1, alGet_alSet_self] at hget1
        injection hget1 with h1
        injection h1 with h2
        exact h2.symm
      subst hpsA
      refine ⟨xs, ps, psF, rfl, hget, ?_, hupd, ?_, ?_⟩
      · rw [hsd'eq, ← hxs1, alSet_alSet_same]
      · rcases hcreated with ⟨habs, _⟩ | ⟨c, hc2, hcF⟩
        · rcases hcr2 with ⟨_, hsome⟩ | ⟨c, _, hsome⟩ <;>
            rw [hsome] at habs <;> exact absurd habs (by simp)
        · rcases hcr2 with ⟨hnone, hsome⟩ | ⟨c', hc', hsome⟩
          · rw [hsome] at hc2
            injection hc2 with h
            exact Or.inl ⟨hnone, by rw [hcF, ← h, hnv]; rfl⟩
          · rw [hsome] at hc2
            injection hc2 with h
            exact Or.inr ⟨c', hc', by rw [hcF, ← h]⟩
      · intro k hkc hku
        rw [hother k hkc hku, hoth2 k hkc hku]

/-! ## Success inversion for `ItemSerializer.stac_to_db` -/

/-- A successful run of the post-normalization body of
`ItemSerializer.stac_to_db` factors into its successive steps, and the
returned row carries exactly the values those steps produced (with `links`
never passed, hence NULL). -/
theorem item_core_ok_shape (settings : List String) (now : DT)
    (sd0 : PyVal) (eg : Bool) (row : DbItem) (sdF : PyVal) :
    ItemSerializer.stacToDbCore settings now sd0 eg = .ok (row, sdF) →
    ∃ acc sdL g props1 dtv props2 sd2 crv props3,
      ItemSerializer.indexedLoop now settings sd0 [] = .ok (acc, sdL) ∧
      pySubscript sdL "geometry" = .ok g ∧
      dumpGeometry g = .ok row.geometry ∧
      pySubscript sdL "properties" = .ok props1 ∧
      pySubscript props1 "datetime" = .ok dtv ∧
      stringifyDtEntry "datetime" props1 sdL dtv = .ok (props2, sd2) ∧
      pySubscript props2 "created" = .ok crv ∧
      stringifyDtEntry "created" props2 sd2 crv = .ok (props3, sdF) ∧
      row.properties = props3 ∧
      pySubscript sdF "id" = .ok row.id ∧
      pySubscript sdF "collection" = .ok row.collection_id ∧
      pySubscript sdF "stac_version" = .ok row.stac_version ∧
      pyGetD sdF "stac_extensions" = .ok row.stac_extensions ∧
      pyGetD sdF "bbox" = .ok row.bbox ∧
      pySubscript sdF "assets" = .ok row.assets ∧
      row.links = .none ∧
      row.indexed = acc := by
  intro h
  rw [ItemSerializer.stacToDbCore] at h
  rcases h1 : ItemSerializer.indexedLoop now settings sd0 [] with e | p <;>
    rw [h1] at h
  · exact absurd h (by simp [error_bind])
  obtain ⟨acc, sdL⟩ := p
  rw [ok_bind] at h
  simp only at h
  rcases h2 : pySubscript sdL "geometry" with e | g <;> rw [h2] at h
  · exact absurd h (by simp [error_bind])
  rw [ok_bind] at h
  rcases h3 : dumpGeometry g with e | geom <;> rw [h3] at h
  · exact absurd h (by simp [error_bind])
  rw [ok_bind] at h
  rcases h4 : pySubscript sdL "properties" with e | props1 <;> rw [h4] at h
  · exact absurd h (by simp [error_bind])
  rw [ok_bind] at h
  rcases h5 : pySubscript props1 "datetime" with e | dtv <;> rw [h5] at h
  · exact absurd h (by simp [error_bind])
  rw [ok_bind] at h
  rcases h6 : stringifyDtEntry "datetime" props1 sdL dtv with e | q <;>
    rw [h6] at h
  · exact absurd h (by simp [error_bind])
  obtain ⟨props2, sd2⟩ := q
  rw [ok_bind] at h
  simp only at h
  rcases h7 : pySubscript props2 "created" with e | crv <;> rw [h7] at h
  · exact absurd h (by simp [error_bind])
  rw [ok_bind] at h
  rcases h8 : stringifyDtEntry "created" props2 sd2 crv with e | q2 <;>
    rw [h8] at h
  · exact absurd h (by simp [error_bind])
  obtain ⟨props3, sd3⟩ := q2
  rw [ok_bind] at h
  simp only at h
  rcases h9 : pySubscript sd3 "id" with e | idv <;> rw [h9] at h
  · exact absurd h (by simp [error_bind])
  rw [ok_bind] at h
  rcases h10 : pySubscript sd3 "collection" with e | coll <;> rw [h10] at h
  · exact absurd h (by simp [error_bind])
  rw [ok_bind] at h
  rcases h11 : pySubscript sd3 "stac_version" with e | sv <;> rw [h11] at h
  · exact absurd h (by simp [error_bind])
  rw [ok_bind] at h
  rcases h12 : pyGetD sd3 "stac_extensions" with e | se <;> rw [h12] at h
  · exact absurd h (by simp [error_bind])
  rw [ok_bind] at h
  rcases h13 : pyGetD sd3 "bbox" with e | bb <;> rw [h13] at h
  · exact absurd h (by simp [error_bind])
  rw [ok_bind] at h
  rcases h14 : pySubscript sd3 "assets" with e | av <;> rw [h14] at h
  · exact absurd h (by simp [error_bind])
  rw [ok_bind] at h
  simp only [pure, Except.pure] at h
  injection h with hpair
  injection hpair with hrow hsdF
  subst hrow
  subst hsdF
  exact ⟨acc, sdL, g, props1, dtv, props2, sd2, crv, props3,
    rfl, h2, h3, h4, h5, h6, h7, h8, rfl, h9, h10, h11, h12, h13, h14,
    rfl, rfl⟩

/-- A successful call to `ItemSerializer.stac_to_db` factors into the input
normalization, the core body, and the choice of returned caller-argument
value: the mutated dict when the input was a dict, the untouched original
otherwise. -/
theorem item_stac_to_db_ok_shape (settings : List String) (now : DT)
    (stac0 : PyVal) (eg : Bool) (row : DbItem) (post : PyVal) :
    ItemSerializer.stac_to_db settings now stac0 eg = .ok (row, post) →
    ∃ sd sdF,
      normalizeInput stac0 = .ok sd ∧
      ItemSerializer.stacToDbCore settings now sd eg = .ok (row, sdF) ∧
      post = (if pyIsDict stac0 then sdF else stac0) := by
  intro h
  rw [ItemSerializer.stac_to_db] at h
  rcases h0 : normalizeInput stac0 with e | sd <;> rw [h0] at h
  · exact absurd h (by simp [error_bind])
  rw [ok_bind] at h
  rcases h1 : ItemSerializer.stacToDbCore settings now sd eg with e | p <;>
    rw [h1] at h
  · exact absurd h (by simp [error_bind])
  obtain ⟨row', sdF⟩ := p
  rw [ok_bind] at h
  simp only [pure, Except.pure] at h
  injection h with hpair
  injection hpair with hrow hpost
  subst hrow
  exact ⟨sd, sdF, rfl, h1, hpost.symm⟩

/-- A successful pass of the indexed-fields loop over a dict input leaves
every key other than `"properties"` unchanged. -/
theorem indexedLoop_preserves_key (now : DT) (settings : List String)
    (xs acc acc' : List (String × PyVal)) (sd' : PyVal) (k : String)
    (hk : k ≠ "properties") :
    ItemSerializer.indexedLoop now settings (.dict xs) acc = .ok (acc', sd') →
    ∃ xs', sd' = .dict xs' ∧ alGet xs' k = alGet xs k := by
  intro h
  cases settings with
  | nil =>
    rw [ItemSerializer.indexedLoop] at h
    injection h with hp
    injection hp with h1 h2
    exact ⟨xs, h2.symm, rfl⟩
  | cons f rest =>
    obtain ⟨xs0, ps, psF, heq, hget, hsd', _, _, _⟩ :=
      indexedLoop_ok_shape now (f :: rest) _ _ _ _ (by simp) h
    injection heq with hxs0
    subst hxs0
    exact ⟨_, hsd', alGet_alSet_ne _ _ _ _ hk⟩

/-! ## C8 — `Serializer.row_to_dict` -/

/-- **C8 counterexample.** The claim says every non-null column value
appears in `row_to_dict`'s output; but a row whose `stac_extensions` column
holds the empty list — non-null — produces an empty mapping, because the
source keeps a column under `if value:` (truthiness), not under a null
test. -/
theorem row_to_dict_nonnull_omitted_counterexample :
    Serializer.row_to_dict [("stac_extensions", PyVal.list [])] = [] ∧
      PyVal.list [] ≠ PyVal.none :=
  ⟨rfl, fun h => PyVal.noConfusion h⟩

/-- **C8 (amended).** `Serializer.row_to_dict` returns the row's columns
whose values are truthy, with their values: a column/value pair appears in
the output exactly when it is a column of the row and its value is truthy
(so null columns are omitted, but so are empty/zero/false ones). -/
theorem row_to_dict_truthy_amended (cols : List (String × PyVal))
    (k : String) (v : PyVal) :
    (k, v) ∈ Serializer.row_to_dict cols ↔
      ((k, v) ∈ cols ∧ pyTruthy v = true) := by
  induction cols with
  | nil => simp [Serializer.row_to_dict]
  | cons hd tl ih =>
    obtain ⟨k₀, v₀⟩ := hd
    by_cases h : pyTruthy v₀ = true
    · rw [Serializer.row_to_dict, if_pos h]
      constructor
      · intro hm
        rcases List.mem_cons.mp hm with heq | hm'
        · injection heq with e1 e2
          subst e1; subst e2
          exact ⟨List.mem_cons_self _ _, h⟩
        · obtain ⟨hin, ht⟩ := ih.mp hm'
          exact ⟨List.mem_cons_of_mem _ hin, ht⟩
      · rintro ⟨hm, ht⟩
        rcases List.mem_cons.mp hm with heq | hm'
        · exact heq ▸ List.mem_cons_self _ _
        · exact List.mem_cons_of_mem _ (ih.mpr ⟨hm', ht⟩)
    · rw [Serializer.row_to_dict, if_neg h]
      constructor
      · intro hm
        obtain ⟨hin, ht⟩ := ih.mp hm
        exact ⟨List.mem_cons_of_mem _ hin, ht⟩
      · rintro ⟨hm, ht⟩
        rcases List.mem_cons.mp hm with heq | hm'
        · injection heq with e1 e2
          subst e2
          exact absurd ht h
        · exact ih.mpr ⟨hm', ht⟩

/-! ## C10 — `exclude_geometry` has no effect -/

/-- **C10.** The `exclude_geometry` parameter of `stac_to_db` is never read:
for both serializers the result is the same whatever its value; and on an
Item whose geometry key holds a non-null value `g`, a successful conversion
always carries `g` into the row (as its JSON text). -/
theorem stac_to_db_exclude_geometry_no_effect :
    (∀ (settings : List String) (now : DT) (stac_data : PyVal) (e₁ e₂ : Bool),
       ItemSerializer.stac_to_db settings now stac_data e₁ =
         ItemSerializer.stac_to_db settings now stac_data e₂) ∧
    (∀ (stac_data : PyVal) (e₁ e₂ : Bool),
       CollectionSerializer.stac_to_db stac_data e₁ =
         CollectionSerializer.stac_to_db stac_data e₂) ∧
    (∀ (settings : List String) (now : DT) (xs : List (String × PyVal))
       (g : PyVal) (e : Bool) (row : DbItem) (post : PyVal),
       alGet xs "geometry" = some g → g ≠ PyVal.none →
       ItemSerializer.stac_to_db settings now (.dict xs) e = .ok (row, post) →
       row.geometry = .jsonText g) := by
  refine ⟨fun _ _ _ _ _ => rfl, fun _ _ _ => rfl, ?_⟩
  intro settings now xs g e row post hg hne hcall
  obtain ⟨sd, sdF, hnorm, hcore, _⟩ :=
    item_stac_to_db_ok_shape _ _ _ _ _ _ hcall
  have hsd : sd = PyVal.dict xs := by
    rw [normalizeInput] at hnorm
    simp only [pyIsDict, if_pos] at hnorm
    injection hnorm with h'
    exact h'.symm
  subst hsd
  obtain ⟨acc, sdL, g₀, props1, dtv, props2, sd2, crv, props3,
    hloop, hgeom, hdump, _⟩ := item_core_ok_shape _ _ _ _ _ _ hcore
  obtain ⟨xsL, hsdL, hpres⟩ :=
    indexedLoop_preserves_key now settings xs [] acc sdL "geometry"
      (by decide) hloop
  subst hsdL
  have hg₀ : g₀ = g := by
    obtain ⟨xs', heq, hget'⟩ := (pySubscript_ok_iff _ _ _).mp hgeom
    injection heq with h'
    subst h'
    rw [hpres, hg] at hget'
    injection hget' with h''
    exact h''.symm
  subst hg₀
  have hd : dumpGeometry g₀ = jsonDumps g₀ := by
    cases g₀ <;> first | exact absurd rfl hne | rfl
  rw [hd, jsonDumps] at hdump
  by_cases hser : jsonSerializable g₀ = true
  · rw [if_pos hser] at hdump
    injection hdump with h'
    exact h'.symm
  · rw [if_neg hser] at hdump
    exact absurd hdump (by simp)

/-- **C10 witness.** The third clause applied to the concrete valid Item:
its Point geometry reaches the row as JSON text. -/
theorem stac_to_db_exclude_geometry_no_effect_witness :
    ∃ row post,
      ItemSerializer.stac_to_db ["datetime"] wNow (.dict wItem) false =
        .ok (row, post) ∧ row.geometry = .jsonText wGeom := by
  refine ⟨_, _, rfl, ?_⟩
  exact stac_to_db_exclude_geometry_no_effect.2.2 ["datetime"] wNow wItem wGeom
    false _ _ rfl (by simp [wGeom]) rfl

/-! ## C5 — input tolerance of `stac_to_db` -/

/-- **C5 counterexample.** The claim says both serializers accept a typed
record or a plain mapping and produce the same row. `ItemSerializer` does,
but `CollectionSerializer.stac_to_db` reads `stac_data.extent` by attribute
access: the very same Collection payload succeeds as a typed object and
raises `AttributeError` as a plain dict. -/
theorem collection_stac_to_db_plain_dict_counterexample :
    (∃ r, CollectionSerializer.stac_to_db (.obj wCollection) false = .ok r) ∧
      CollectionSerializer.stac_to_db (.dict wCollection) false =
        .error (.attributeError "extent") :=
  ⟨⟨_, rfl⟩, rfl⟩

/-- **C5 (amended).** `ItemSerializer.stac_to_db` accepts a typed record or
the equal plain mapping and produces the same storage row (it normalizes
through `to_dict()`; only the returned caller-argument differs).
`CollectionSerializer.stac_to_db` accepts only typed records: every plain
mapping input fails with `AttributeError` on `extent`. -/
theorem stac_to_db_input_tolerance_amended :
    (∀ (fs : List (String × PyVal)) (settings : List String) (now : DT)
       (e : Bool),
       Except.map Prod.fst (ItemSerializer.stac_to_db settings now (.obj fs) e) =
         Except.map Prod.fst (ItemSerializer.stac_to_db settings now (.dict fs) e)) ∧
    (∀ (xs : List (String × PyVal)) (e : Bool),
       CollectionSerializer.stac_to_db (.dict xs) e =
         .error (.attributeError "extent")) := by
  constructor
  · intro fs settings now e
    rw [ItemSerializer.stac_to_db, ItemSerializer.stac_to_db]
    have h1 : normalizeInput (PyVal.obj fs) = .ok (.dict fs) := rfl
    have h2 : normalizeInput (PyVal.dict fs) = .ok (.dict fs) := rfl
    rw [h1, h2, ok_bind, ok_bind]
    rcases hc : ItemSerializer.stacToDbCore settings now (.dict fs) e
      with err | p
    · rfl
    · obtain ⟨row, sdF⟩ := p
      rfl
  · intro xs e
    rfl

/-! ## C2 — the swallowed JSON-serializability failure -/

/-- **C2 (code bug).** On a Collection whose summaries hold a raw datetime,
the flattened mapping fails the JSON-serializability check — and
`CollectionSerializer.stac_to_db` still returns the constructed row, because
the source catches the `TypeError` from `json.dumps`, prints it, and falls
through to row construction. The spec (§4.4, §7, Design Notes) makes that
check fatal via `SerializationError`, flagging the source behavior as a
latent defect. -/
theorem collection_stac_to_db_swallows_serialization_failure :
    ∃ r, CollectionSerializer.stac_to_db (.obj wBadCollection) false = .ok r ∧
      jsonSerializable (.dict r.fields) = false := by
  exact ⟨_, rfl, rfl⟩

/-! ## C9 — null providers on the Collection write path -/

/-- **C9.** `CollectionSerializer.stac_to_db` iterates
`stac_data.providers` unconditionally: a record whose `providers` attribute
is null (the field is optional in the data model) fails with `TypeError`
instead of producing a row without providers. -/
theorem collection_stac_to_db_null_providers_fails
    (c : PyVal) (e : Bool) (ext extd : PyVal)
    (hext : pyGetAttr c "extent" = .ok ext)
    (hextd : CollectionSerializer.extentDict ext = .ok extd)
    (hprov : pyGetAttr c "providers" = .ok PyVal.none) :
    CollectionSerializer.stac_to_db c e = .error .typeError := by
  rw [CollectionSerializer.stac_to_db, hext, ok_bind, hextd, ok_bind,
    hprov, ok_bind]
  rfl

/-- **C9 witness.** The concrete Collection with `providers = None`. -/
theorem collection_stac_to_db_null_providers_fails_witness :
    CollectionSerializer.stac_to_db (.obj wCollectionNullProviders) false =
      .error .typeError :=
  collection_stac_to_db_null_providers_fails _ false wExtent _ rfl rfl rfl

/-! ## C7 — falsy optional columns are omitted on the Collection read path -/

/-- **C7.** Whatever `CollectionSerializer.db_to_stac` returns, the output
mapping carries no `title`, `keywords`, `providers` or `summaries` key when
the corresponding row column is empty or null (falsy): each optional key is
inserted only under `if db_model.<column>:`. In particular a row with
`providers = None` yields an output with no `providers` key at all. -/
theorem collection_db_to_stac_omits_falsy_optionals
    (r : DbCollection) (base_url : String) (out : List (String × PyVal))
    (hout : CollectionSerializer.db_to_stac r base_url = .ok (.dict out)) :
    (pyTruthy (r.get "title") = false → alGet out "title" = Option.none) ∧
    (pyTruthy (r.get "keywords") = false → alGet out "keywords" = Option.none) ∧
    (pyTruthy (r.get "providers") = false → alGet out "providers" = Option.none) ∧
    (pyTruthy (r.get "summaries") = false → alGet out "summaries" = Option.none) := by
  rw [CollectionSerializer.db_to_stac] at hout
  rcases hl : appendResolved
      (CollectionLinks.create_links (r.get "id") base_url)
      (r.get "links") base_url with e | ls <;> rw [hl] at hout
  · exact absurd hout (by simp [error_bind])
  rw [ok_bind] at hout
  simp only [pure, Except.pure] at hout
  injection hout with hdict
  injection hdict with hout'
  subst hout'
  have hstep : ∀ (c : Bool) (key : String) (v : PyVal)
      (l : List (String × PyVal)) (k : String), k ≠ key →
      alGet (if c then alSet l key v else l) k = alGet l k := by
    intro c key v l k hk
    cases c
    · simp
    · simp [alGet_alSet_ne _ _ _ _ hk]
  have hbase : ∀ k : String, k ≠ "type" → k ≠ "id" → k ≠ "stac_version" →
      k ≠ "description" → k ≠ "license" → k ≠ "extent" → k ≠ "links" →
      alGet [("type", PyVal.str "Collection"), ("id", r.get "id"),
        ("stac_version", r.get "stac_version"),
        ("description", r.get "description"),
        ("license", r.get "license"), ("extent", r.get "extent"),
        ("links", PyVal.list ls)] k = Option.none := by
    intro k h1 h2 h3 h4 h5 h6 h7
    simp [alGet, h1, h2, h3, h4, h5, h6, h7]
  refine ⟨?_, ?_, ?_, ?_⟩
  · intro hfal
    rw [hstep, hstep, hstep, if_neg (by simp [hfal]), hstep]
    · exact hbase "title" (by decide) (by decide) (by decide) (by decide)
        (by decide) (by decide) (by decide)
    all_goals decide
  · intro hfal
    rw [hstep, hstep, if_neg (by simp [hfal]), hstep, hstep]
    · exact hbase "keywords" (by decide) (by decide) (by decide) (by decide)
        (by decide) (by decide) (by decide)
    all_goals decide
  · intro hfal
    rw [hstep, if_neg (by simp [hfal]), hstep, hstep, hstep]
    · exact hbase "providers" (by decide) (by decide) (by decide) (by decide)
        (by decide) (by decide) (by decide)
    all_goals decide
  · intro hfal
    rw [if_neg (by simp [hfal]), hstep, hstep, hstep, hstep]
    · exact hbase "summaries" (by decide) (by decide) (by decide) (by decide)
        (by decide) (by decide) (by decide)
    all_goals decide

/-- **C7 witness.** The bare Collection row (`providers = None`, empty
`title`/`keywords`/`summaries`) produces an output carrying none of the
four optional keys. -/
theorem collection_db_to_stac_omits_falsy_optionals_witness :
    ∃ out,
      CollectionSerializer.db_to_stac wBareCollectionRow "http://api" =
        .ok (.dict out) ∧
      alGet out "providers" = Option.none ∧ alGet out "title" = Option.none ∧
      alGet out "keywords" = Option.none ∧ alGet out "summaries" = Option.none := by
  have h := collection_db_to_stac_omits_falsy_optionals wBareCollectionRow
    "http://api" _ rfl
  exact ⟨_, rfl, h.2.2.1 rfl, h.1 rfl, h.2.1 rfl, h.2.2.2 rfl⟩

/-- `stringifyDtEntry` is the identity pair on any non-datetime value. -/
theorem stringifyDtEntry_not_dt (key : String) (props sd v : PyVal)
    (h : ∀ t, v ≠ .dt t) :
    stringifyDtEntry key props sd v = .ok (props, sd) := by
  cases v <;> first | rfl | exact absurd rfl (h _)

/-- A missing key subscripts to `KeyError`. -/
theorem pySubscript_missing (xs : List (String × PyVal)) (k : String)
    (h : alGet xs k = Option.none) :
    pySubscript (.dict xs) k = .error (.keyError k) := by
  simp [pySubscript, h]

/-- A serializable geometry passes `dumpGeometry`. -/
theorem dumpGeometry_serializable (g : PyVal) (h : jsonSerializable g = true) :
    ∃ g2, dumpGeometry g = .ok g2 := by
  cases g <;> simp [dumpGeometry, jsonDumps, h]

/-! ## C4 — missing `datetime`/`created` entries fail, never skipped -/

/-- **C4.** On a dict Item whose properties lack `"datetime"`,
`ItemSerializer.stac_to_db` always raises (first conjunct); with no indexed
fields configured the failure at the conversion site is exactly
`KeyError("datetime")` (second conjunct); and when `"datetime"` is present
but `"created"` is absent at the point its conversion is attempted — which
happens exactly when the indexed-fields loop never ran to default it — the
failure is exactly `KeyError("created")` (third conjunct). Nothing is
silently skipped. -/
theorem item_stac_to_db_missing_field_fails
    (settings : List String) (now : DT) (xs ps : List (String × PyVal))
    (e : Bool) (hprops : alGet xs "properties" = some (.dict ps)) :
    (alGet ps "datetime" = Option.none →
       ∃ err, ItemSerializer.stac_to_db settings now (.dict xs) e = .error err) ∧
    (settings = [] → ∀ g, alGet xs "geometry" = some g →
       jsonSerializable g = true → alGet ps "datetime" = Option.none →
       ItemSerializer.stac_to_db settings now (.dict xs) e =
         .error (.keyError "datetime")) ∧
    (settings = [] → ∀ g dv, alGet xs "geometry" = some g →
       jsonSerializable g = true → alGet ps "datetime" = some dv →
       alGet ps "created" = Option.none →
       ItemSerializer.stac_to_db settings now (.dict xs) e =
         .error (.keyError "created")) := by
  have hnorm : normalizeInput (.dict xs) = .ok (.dict xs) := rfl
  have hsubp : pySubscript (PyVal.dict xs) "properties" = .ok (.dict ps) := by
    rw [pySubscript_ok_iff]
    exact ⟨xs, rfl, hprops⟩
  refine ⟨?_, ?_, ?_⟩
  · -- general: a missing "datetime" always ends in an error
    intro habs
    rcases hr : ItemSerializer.stac_to_db settings now (.dict xs) e
      with err | p
    · exact ⟨err, rfl⟩
    obtain ⟨row, post⟩ := p
    obtain ⟨sd, sdF, hn, hcore, _⟩ := item_stac_to_db_ok_shape _ _ _ _ _ _ hr
    rw [hnorm] at hn
    injection hn with hsd
    obtain ⟨acc, sdL, g, props1, dtv, _, _, _, _, hloop, _, _, hp1, hdtv, _⟩ :=
      item_core_ok_shape _ _ _ _ _ _ hcore
    rw [← hsd] at hloop
    cases hs : settings with
    | nil =>
      rw [hs, ItemSerializer.indexedLoop] at hloop
      injection hloop with hpr
      injection hpr with ha hb
      rw [← hb] at hp1
      rw [hsubp] at hp1
      injection hp1 with hp1'
      rw [← hp1'] at hdtv
      rw [pySubscript_missing ps "datetime" habs] at hdtv
      exact absurd hdtv (by simp)
    | cons f rest =>
      rw [hs] at hloop
      obtain ⟨xs0, ps0, psF, heq, hget0, hsdL, _, _, hoth⟩ :=
        indexedLoop_ok_shape now (f :: rest) _ _ _ _ (by simp) hloop
      injection heq with hxs0
      rw [← hxs0] at hget0
      rw [hprops] at hget0
      injection hget0 with hget0'
      injection hget0' with hps0
      rw [hsdL] at hp1
      rw [pySubscript_ok_iff] at hp1
      obtain ⟨xs', heq', hget'⟩ := hp1
      injection heq' with hxs'
      rw [← hxs', alGet_alSet_self] at hget'
      injection hget' with hget''
      rw [← hget''] at hdtv
      rw [pySubscript_ok_iff] at hdtv
      obtain ⟨ps', heq'', hget3⟩ := hdtv
      injection heq'' with hps'
      rw [← hps'] at hget3
      rw [hoth "datetime" (by decide) (by decide), ← hps0, habs] at hget3
      exact absurd hget3 (by simp)
  · -- settings = []: the failure is exactly KeyError("datetime")
    intro hs g hgeom hser habs
    subst hs
    obtain ⟨g2, hg2⟩ := dumpGeometry_serializable g hser
    rw [ItemSerializer.stac_to_db, hnorm, ok_bind]
    have hcore : ItemSerializer.stacToDbCore [] now (.dict xs) e =
        .error (.keyError "datetime") := by
      rw [ItemSerializer.stacToDbCore]
      have hloop : ItemSerializer.indexedLoop now [] (.dict xs) [] =
          .ok ([], .dict xs) := rfl
      rw [hloop, ok_bind]
      simp only
      have hgeo : pySubscript (PyVal.dict xs) "geometry" = .ok g := by
        rw [pySubscript_ok_iff]
        exact ⟨xs, rfl, hgeom⟩
      rw [hgeo, ok_bind, hg2, ok_bind, hsubp, ok_bind,
        pySubscript_missing ps "datetime" habs, error_bind]
    rw [hcore, error_bind]
  · -- settings = []: with "datetime" present, the failure is KeyError("created")
    intro hs g dv hgeom hser hdt habs
    subst hs
    obtain ⟨g2, hg2⟩ := dumpGeometry_serializable g hser
    rw [ItemSerializer.stac_to_db, hnorm, ok_bind]
    have hdtv : pySubscript (PyVal.dict ps) "datetime" = .ok dv := by
      rw [pySubscript_ok_iff]
      exact ⟨ps, rfl, hdt⟩
    have hcore : ItemSerializer.stacToDbCore [] now (.dict xs) e =
        .error (.keyError "created") := by
      rw [ItemSerializer.stacToDbCore]
      have hloop : ItemSerializer.indexedLoop now [] (.dict xs) [] =
          .ok ([], .dict xs) := rfl
      rw [hloop, ok_bind]
      simp only
      have hgeo : pySubscript (PyVal.dict xs) "geometry" = .ok g := by
        rw [pySubscript_ok_iff]
        exact ⟨xs, rfl, hgeom⟩
      rw [hgeo, ok_bind, hg2, ok_bind, hsubp, ok_bind, hdtv, ok_bind]
      by_cases hisdt : ∃ t, dv = .dt t
      · obtain ⟨t, ht⟩ := hisdt
        subst ht
        have hstep : stringifyDtEntry "datetime" (.dict ps) (.dict xs) (.dt t) =
            .ok (.dict (alSet ps "datetime" (.str (isoformatUtc t))),
                 .dict (alSet xs "properties"
                   (.dict (alSet ps "datetime" (.str (isoformatUtc t)))))) := rfl
        rw [hstep, ok_bind]
        simp only
        rw [pySubscript_missing _ "created"
          (by rw [alGet_alSet_ne _ _ _ _ (by decide)]; exact habs), error_bind]
      · have hnd : ∀ t, dv ≠ .dt t := by
          intro t ht
          exact hisdt ⟨t, ht⟩
        rw [stringifyDtEntry_not_dt _ _ _ _ hnd, ok_bind]
        simp only
        rw [pySubscript_missing ps "created" habs, error_bind]
    rw [hcore, error_bind]

/-- **C4 witness.** The valid Item with its `datetime` removed fails (first
conjunct), and with no indexed fields configured the Item lacking `created`
fails with exactly `KeyError("created")` (third conjunct). -/
theorem item_stac_to_db_missing_field_fails_witness :
    (∃ err, ItemSerializer.stac_to_db ["datetime"] wNow
      (.dict [("id", .str "a"), ("properties", .dict [("created",
        .str "2019-01-01T00:00:00Z")])]) false = .error err) ∧
    ItemSerializer.stac_to_db [] wNow (.dict wItemNoCreated) false =
      .error (.keyError "created") := by
  constructor
  · exact (item_stac_to_db_missing_field_fails ["datetime"] wNow
      [("id", .str "a"), ("properties", .dict [("created",
        .str "2019-01-01T00:00:00Z")])]
      [("created", .str "2019-01-01T00:00:00Z")] false rfl).1 rfl
  · exact (item_stac_to_db_missing_field_fails [] wNow wItemNoCreated
      [("datetime", .str "2020-01-01T00:00:00Z")] false rfl).2.2 rfl
      PyVal.none (.str "2020-01-01T00:00:00Z") rfl rfl rfl rfl

/-- A successful `stringifyDtEntry` step with a dict properties value only
rewrites its own key in the properties. -/
theorem stringifyDtEntry_preserves (key : String) (pp : List (String × PyVal))
    (sd v props' sd' : PyVal) (k : String) (hk : k ≠ key)
    (h : stringifyDtEntry key (.dict pp) sd v = .ok (props', sd')) :
    ∃ pp', props' = .dict pp' ∧ alGet pp' k = alGet pp k := by
  by_cases hd : ∃ t, v = .dt t
  · obtain ⟨t, rfl⟩ := hd
    simp only [stringifyDtEntry] at h
    have h1 : pySetItem (PyVal.dict pp) key (.str (isoformatUtc t)) =
        .ok (.dict (alSet pp key (.str (isoformatUtc t)))) := rfl
    rw [h1, ok_bind] at h
    rcases h2 : pySetItem sd "properties"
        (.dict (alSet pp key (.str (isoformatUtc t)))) with e | sd2 <;>
      rw [h2] at h
    · exact absurd h (by simp [error_bind])
    rw [ok_bind] at h
    injection h with hp
    injection hp with hp1 hp2
    exact ⟨alSet pp key (.str (isoformatUtc t)), hp1.symm,
      alGet_alSet_ne _ _ _ _ hk⟩
  · rw [stringifyDtEntry_not_dt _ _ _ _ (fun t ht => hd ⟨t, ht⟩)] at h
    injection h with hp
    injection hp with hp1 hp2
    exact ⟨pp, hp1.symm, rfl⟩

/-- A successful `stringifyDtEntry` step keeps `stac_data["properties"]`
pointing at the (possibly updated) properties object. -/
theorem stringifyDtEntry_props (key : String) (props sd v props' sd' : PyVal)
    (h : stringifyDtEntry key props sd v = .ok (props', sd'))
    (hsub : pySubscript sd "properties" = .ok props) :
    pySubscript sd' "properties" = .ok props' := by
  by_cases hd : ∃ t, v = .dt t
  · obtain ⟨t, rfl⟩ := hd
    simp only [stringifyDtEntry] at h
    rcases h1 : pySetItem props key (.str (isoformatUtc t)) with e | p2 <;>
      rw [h1] at h
    · exact absurd h (by simp [error_bind])
    rw [ok_bind] at h
    rcases h2 : pySetItem sd "properties" p2 with e | sd2 <;> rw [h2] at h
    · exact absurd h (by simp [error_bind])
    rw [ok_bind] at h
    injection h with hp
    injection hp with hp1 hp2
    subst hp1
    subst hp2
    obtain ⟨sxs, hsx, hsd2⟩ := (pySetItem_ok_iff _ _ _ _).mp h2
    subst hsx
    subst hsd2
    rw [pySubscript_ok_iff]
    exact ⟨_, rfl, alGet_alSet_self _ _ _⟩
  · rw [stringifyDtEntry_not_dt _ _ _ _ (fun t ht => hd ⟨t, ht⟩)] at h
    injection h with hp
    injection hp with hp1 hp2
    subst hp1
    subst hp2
    exact hsub

/-! ## C6 — `ItemSerializer.stac_to_db` mutates dict inputs -/

/-- **C6 counterexample.** The claim says the input record (including its
properties mapping) is unchanged after the call. Running the converter on
the valid dict Item lacking `created` hands back the caller's dict with its
properties mutated in place: they have gained `created` and `updated`
entries, so the post-call value differs from the original input. -/
theorem item_stac_to_db_mutates_input_counterexample :
    (∃ row, ItemSerializer.stac_to_db ["datetime"] wNow
        (.dict wItemNoCreated) false = .ok (row, .dict wPostNoCreated)) ∧
    alGet wItemNoCreated "properties" =
      some (.dict [("datetime", .str "2020-01-01T00:00:00Z")]) ∧
    alGet wPostNoCreated "properties" =
      some (.dict [("datetime", .str "2020-01-01T00:00:00Z"),
        ("created", .str "2024-05-17T12:00:00Z"),
        ("updated", .str "2024-05-17T12:00:00Z")]) ∧
    PyVal.dict wPostNoCreated ≠ PyVal.dict wItemNoCreated := by
  refine ⟨⟨_, rfl⟩, rfl, rfl, ?_⟩
  intro h
  injection h with hl
  simp [wPostNoCreated, wItemNoCreated] at hl

/-- **C6 (amended).** `ItemSerializer.stac_to_db` is deterministic in its
arguments but not mutation-free: a typed-object input comes back unchanged
(the body works on the fresh `to_dict()` copy), while a dict input is
mutated in place — after any successful call with a non-empty indexed-field
configuration, the caller's dict has `properties["updated"]` set to the
current instant. -/
theorem item_stac_to_db_mutation_amended :
    (∀ (fs : List (String × PyVal)) (settings : List String) (now : DT)
       (e : Bool) (row : DbItem) (post : PyVal),
       ItemSerializer.stac_to_db settings now (.obj fs) e = .ok (row, post) →
       post = .obj fs) ∧
    (∀ (xs : List (String × PyVal)) (settings : List String) (now : DT)
       (e : Bool) (row : DbItem) (post : PyVal), settings ≠ [] →
       ItemSerializer.stac_to_db settings now (.dict xs) e = .ok (row, post) →
       ∃ pp, pySubscript post "properties" = .ok (.dict pp) ∧
         alGet pp "updated" = some (.str (rfc3339Fmt now))) := by
  constructor
  · intro fs settings now e row post hcall
    obtain ⟨sd, sdF, _, _, hpost⟩ := item_stac_to_db_ok_shape _ _ _ _ _ _ hcall
    simpa [pyIsDict] using hpost
  · intro xs settings now e row post hne hcall
    obtain ⟨sd, sdF, hn, hcore, hpost⟩ :=
      item_stac_to_db_ok_shape _ _ _ _ _ _ hcall
    have hsd : sd = PyVal.dict xs := by
      have : normalizeInput (PyVal.dict xs) = .ok (.dict xs) := rfl
      rw [this] at hn
      injection hn with h'
      exact h'.symm
    subst hsd
    have hpost' : post = sdF := by simpa [pyIsDict] using hpost
    subst hpost'
    obtain ⟨acc, sdL, g, props1, dtv, props2, sd2, crv, props3,
      hloop, _, _, hp1, _, h6, _, h8, _⟩ := item_core_ok_shape _ _ _ _ _ _ hcore
    obtain ⟨xs0, ps0, psF, heq, _, hsdL, hupd, _, _⟩ :=
      indexedLoop_ok_shape now settings _ _ _ _ hne hloop
    injection heq with hxs0
    subst hsdL
    have hprops1 : props1 = PyVal.dict psF := by
      obtain ⟨xs', heq', hget'⟩ := (pySubscript_ok_iff _ _ _).mp hp1
      injection heq' with hxs'
      rw [← hxs', alGet_alSet_self] at hget'
      injection hget' with h'
      exact h'.symm
    subst hprops1
    obtain ⟨pp2, hpp2, hpres2⟩ :=
      stringifyDtEntry_preserves "datetime" psF _ dtv props2 sd2 "updated"
        (by decide) h6
    subst hpp2
    obtain ⟨pp3, hpp3, hpres3⟩ :=
      stringifyDtEntry_preserves "created" pp2 _ crv props3 post "updated"
        (by decide) h8
    have hsub2 : pySubscript sd2 "properties" = .ok (.dict pp2) :=
      stringifyDtEntry_props "datetime" _ _ _ _ _ h6
        (by rw [pySubscript_ok_iff]; exact ⟨_, rfl, alGet_alSet_self _ _ _⟩)
    have hsub3 : pySubscript post "properties" = .ok props3 :=
      stringifyDtEntry_props "created" _ _ _ _ _ h8 hsub2
    refine ⟨pp3, ?_, ?_⟩
    · rw [← hpp3]
      exact hsub3
    · rw [hpres3, hpres2, hupd]

/-- **C6 amended witness.** The dict-input clause at the concrete Item:
after the call the caller's dict has `updated` set to `wNow`. -/
theorem item_stac_to_db_mutation_amended_witness :
    ∃ row post,
      ItemSerializer.stac_to_db ["datetime"] wNow (.dict wItemNoCreated) false =
        .ok (row, post) ∧
      ∃ pp, pySubscript post "properties" = .ok (.dict pp) ∧
        alGet pp "updated" = some (.str (rfc3339Fmt wNow)) := by
  have h := item_stac_to_db_mutation_amended.2 wItemNoCreated ["datetime"] wNow
    false _ _ (by simp) rfl
  exact ⟨_, _, rfl, h⟩

/-! ## C3 — `created`/`updated` stamping on the Item write path -/

/-- **C3 counterexample.** The claim says every call leaves
`properties.updated ≥ properties.created`. But the converter keeps a
pre-existing `created` untouched and stamps `updated` with the current
instant, so an input whose `created` lies in the future comes out with
`updated` strictly before `created`. -/
theorem item_stac_to_db_updated_lt_created_counterexample :
    ∃ row post,
      ItemSerializer.stac_to_db ["datetime"] wNow (.dict wItemFutureCreated)
        false = .ok (row, post) ∧
      ∃ pp, row.properties = .dict pp ∧
        alGet pp "created" = some (.str "2030-01-01T00:00:00Z") ∧
        alGet pp "updated" = some (.str "2024-05-17T12:00:00Z") ∧
        ∃ tc tu, rfc3339_str_to_datetime "2030-01-01T00:00:00Z" = .ok tc ∧
          rfc3339_str_to_datetime "2024-05-17T12:00:00Z" = .ok tu ∧
          DT.key tu < DT.key tc := by
  exact ⟨_, _, rfl, _, rfl, rfl, rfl, _, _, rfl, rfl, by decide⟩

/-- **C3 (amended).** When at least one indexed field is configured (the
`created`/`updated` refresh sits inside the indexed-fields loop, so an empty
configuration skips it entirely), a successful `ItemSerializer.stac_to_db`
on a dict Item stamps `properties.updated` with the current instant, and
defaults `properties.created` to it when absent; hence
`updated ≥ created` whenever any pre-existing `created` was a well-formed
timestamp not in the future. -/
theorem item_stac_to_db_updated_ge_created_amended
    (settings : List String) (now : DT) (xs : List (String × PyVal)) (e : Bool)
    (row : DbItem) (post : PyVal)
    (hne : settings ≠ [])
    (hnowrt : rfc3339_str_to_datetime (rfc3339Fmt now) = .ok now)
    (hcreated : ∀ ps c, alGet xs "properties" = some (.dict ps) →
       alGet ps "created" = some c →
       ∃ s t, c = .str s ∧ rfc3339_str_to_datetime s = .ok t ∧
         DT.key t ≤ DT.key now)
    (hcall : ItemSerializer.stac_to_db settings now (.dict xs) e =
      .ok (row, post)) :
    ∃ pp, row.properties = .dict pp ∧
      alGet pp "updated" = some (.str (rfc3339Fmt now)) ∧
      ∃ cs tc, alGet pp "created" = some (.str cs) ∧
        rfc3339_str_to_datetime cs = .ok tc ∧ DT.key tc ≤ DT.key now := by
  obtain ⟨sd, sdF, hn, hcore, _⟩ := item_stac_to_db_ok_shape _ _ _ _ _ _ hcall
  have hsd : sd = PyVal.dict xs := by
    have hh : normalizeInput (PyVal.dict xs) = .ok (.dict xs) := rfl
    rw [hh] at hn
    injection hn with h'
    exact h'.symm
  subst hsd
  obtain ⟨acc, sdL, g, props1, dtv, props2, sd2, crv, props3,
    hloop, _, _, hp1, _, h6, h7, h8, hrowprops, _⟩ :=
    item_core_ok_shape _ _ _ _ _ _ hcore
  obtain ⟨xs0, ps0, psF, heq, hget0, hsdL, hupd, hcr, _⟩ :=
    indexedLoop_ok_shape now settings _ _ _ _ hne hloop
  injection heq with hxs0
  subst hsdL
  have hprops1 : props1 = PyVal.dict psF := by
    obtain ⟨xs', heq', hget'⟩ := (pySubscript_ok_iff _ _ _).mp hp1
    injection heq' with hxs'
    rw [← hxs', alGet_alSet_self] at hget'
    injection hget' with h'
    exact h'.symm
  subst hprops1
  obtain ⟨pp2, hpp2eq, hpres2u⟩ :=
    stringifyDtEntry_preserves "datetime" psF _ dtv props2 sd2 "updated"
      (by decide) h6
  obtain ⟨pp2', hpp2eq', hpres2c⟩ :=
    stringifyDtEntry_preserves "datetime" psF _ dtv props2 sd2 "created"
      (by decide) h6
  subst hpp2eq
  injection hpp2eq' with hpp'
  have hpres2c' : alGet pp2 "created" = alGet psF "created" := by
    rw [hpp']
    exact hpres2c
  -- the created value reaching line 133 is a string in both cases
  have hcrv : alGet pp2 "created" = some crv := by
    obtain ⟨pp'', heq'', hget''⟩ := (pySubscript_ok_iff _ _ _).mp h7
    injection heq'' with h''
    rw [h'']
    exact hget''
  have hcases : (crv = .str (rfc3339Fmt now) ∧
        ∃ tc, rfc3339_str_to_datetime (rfc3339Fmt now) = .ok tc ∧
          DT.key tc ≤ DT.key now) ∨
      (∃ s t, crv = .str s ∧ rfc3339_str_to_datetime s = .ok t ∧
        DT.key t ≤ DT.key now) := by
    rcases hcr with ⟨_, hsome⟩ | ⟨c, hc0, hsome⟩
    · left
      have h' : some crv = some (PyVal.str (rfc3339Fmt now)) := by
        rw [← hcrv, hpres2c', hsome]
      injection h' with h''
      exact ⟨h'', now, hnowrt, Nat.le_refl _⟩
    · right
      rw [← hxs0] at hget0
      obtain ⟨s, t, hcs, hpt, hle⟩ := hcreated ps0 c hget0 hc0
      have h' : some crv = some c := by
        rw [← hcrv, hpres2c', hsome]
      injection h' with h''
      refine ⟨s, t, ?_, hpt, hle⟩
      rw [h'']
      exact hcs
  have hcrvs : ∃ s, crv = .str s ∧ ∃ tc, rfc3339_str_to_datetime s = .ok tc ∧
      DT.key tc ≤ DT.key now := by
    rcases hcases with ⟨h1, tc, h2, h3⟩ | ⟨s, t, h1, h2, h3⟩
    · exact ⟨rfc3339Fmt now, h1, tc, h2, h3⟩
    · exact ⟨s, h1, t, h2, h3⟩
  obtain ⟨s, hcrveq, tc, hpt, hle⟩ := hcrvs
  subst hcrveq
  rw [stringifyDtEntry_not_dt _ _ _ _ (by intro t ht; exact absurd ht (by simp))]
    at h8
  injection h8 with hp8
  injection hp8 with hp81 hp82
  refine ⟨pp2, ?_, ?_, s, tc, ?_, hpt, hle⟩
  · rw [hrowprops, ← hp81]
  · rw [hpres2u, hupd]
  · rw [hcrv]

/-- **C3 amended witness.** The valid Item (whose `created` is a well-formed
past timestamp) run at `wNow` with `["datetime"]` indexed: the row's
properties carry `updated = wNow` and a `created` no later than `wNow`. -/
theorem item_stac_to_db_updated_ge_created_amended_witness :
    ∃ row post,
      ItemSerializer.stac_to_db ["datetime"] wNow (.dict wItem) false =
        .ok (row, post) ∧
      ∃ pp, row.properties = .dict pp ∧
        alGet pp "updated" = some (.str (rfc3339Fmt wNow)) ∧
        ∃ cs tc, alGet pp "created" = some (.str cs) ∧
          rfc3339_str_to_datetime cs = .ok tc ∧ DT.key tc ≤ DT.key wNow := by
  have hc : ∀ (ps : List (String × PyVal)) (c : PyVal),
      alGet wItem "properties" = some (.dict ps) →
      alGet ps "created" = some c →
      ∃ s t, c = PyVal.str s ∧ rfc3339_str_to_datetime s = .ok t ∧
        DT.key t ≤ DT.key wNow := by
    intro ps c h1 h2
    have h1' : (some (PyVal.dict
        [("datetime", PyVal.str "2020-01-01T00:00:00Z"),
         ("created", PyVal.str "2019-01-01T00:00:00Z"),
         ("eo:cloud_cover", PyVal.int 10)]) : Option PyVal) =
        some (.dict ps) := h1
    injection h1' with h1''
    injection h1'' with h1'''
    rw [← h1'''] at h2
    have h2' : (some (PyVal.str "2019-01-01T00:00:00Z") : Option PyVal) =
        some c := h2
    injection h2' with h2''
    exact ⟨"2019-01-01T00:00:00Z", ⟨2019, 1, 1, 0, 0, 0⟩, h2''.symm, rfl,
      by decide⟩
  have h := item_stac_to_db_updated_ge_created_amended ["datetime"] wNow wItem
    false _ _ (by simp) rfl hc rfl
  exact ⟨_, _, rfl, h⟩

/-! ## Computational lemmas for the round trip -/

theorem pyGetD_dict (xs : List (String × PyVal)) (k : String) :
    pyGetD (.dict xs) k = .ok ((alGet xs k).getD .none) := by
  cases h : alGet xs k <;> simp [pyGetD, h]

theorem dumpGeometry_ne_none (g : PyVal) (h : g ≠ PyVal.none) :
    dumpGeometry g = jsonDumps g := by
  cases g <;> first | exact absurd rfl h | rfl

theorem getcol_indexed (r : DbItem) (name : String)
    (h : name ∉ itemBaseColumns) (w : PyVal)
    (hw : alGet r.indexed name = some w) :
    DbItem.getcol r name = .ok w := by
  simp only [itemBaseColumns, List.mem_cons, List.mem_singleton] at h
  push_neg at h
  obtain ⟨h1, h2, h3, h4, h5, h6, h7, h8, h9, _⟩ := h
  simp only [DbItem.getcol, if_neg h1, if_neg h2, if_neg h3, if_neg h4,
    if_neg h5, if_neg h6, if_neg h7, if_neg h8, if_neg h9, hw]

theorem exceptMap_pyFloat_floats (qs : List ℚ) :
    exceptMap pyFloat (qs.map PyVal.float) = .ok (qs.map PyVal.float) := by
  induction qs with
  | nil => rfl
  | cons q r ih =>
    simp only [List.map_cons, exceptMap]
    rw [show pyFloat (.float q) = .ok (.float q) from rfl, ok_bind, ih, ok_bind]

/-- Forward computation of the indexed-fields loop on a well-formed dict
Item whose properties already carry `created`: the loop succeeds, stamps
`updated`, and stages each configured field (the `datetime` field parsed)
under the trailing segment of its name. -/
theorem indexedLoop_computes (now : DT) :
    ∀ (settings : List String) (xs ps acc : List (String × PyVal)),
      alGet xs "properties" = some (.dict ps) →
      alHas ps "created" = true →
      (settings.map lastSeg).Nodup →
      (∀ f ∈ settings, f ≠ "created" ∧ f ≠ "updated" ∧
        ∃ v, alGet ps f = some v ∧
          (f = "datetime" → ∃ s t, v = .str s ∧
            rfc3339_str_to_datetime s = .ok t)) →
      ∃ acc',
        ItemSerializer.indexedLoop now settings (.dict xs) acc =
          .ok (acc', if settings = [] then .dict xs
            else .dict (alSet xs "properties"
              (.dict (alSet ps "updated" (.str (rfc3339Fmt now)))))) ∧
        (∀ k, k ∉ settings.map lastSeg → alGet acc' k = alGet acc k) ∧
        (∀ f ∈ settings, ∃ v, alGet ps f = some v ∧
          (f = "datetime" → ∃ s t, v = .str s ∧
            rfc3339_str_to_datetime s = .ok t ∧
            alGet acc' (lastSeg f) = some (.dt t)) ∧
          (f ≠ "datetime" → alGet acc' (lastSeg f) = some v)) := by
  intro settings
  induction settings with
  | nil =>
    intro xs ps acc _ _ _ _
    exact ⟨acc, rfl, fun k _ => rfl, fun f hf => absurd hf (by simp)⟩
  | cons f rest ih =>
    intro xs ps acc hprops hcr hnodup hall
    obtain ⟨hfc, hfu, v, hv, hvdt⟩ := hall f (List.mem_cons_self f rest)
    -- the parsed/staged value for the head field
    obtain ⟨v', hv', hv'dt, hv'nd⟩ : ∃ v', dtParseStep f v = .ok v' ∧
        (f = "datetime" → ∃ s t, v = .str s ∧
          rfc3339_str_to_datetime s = .ok t ∧ v' = .dt t) ∧
        (f ≠ "datetime" → v' = v) := by
      by_cases hf : f = "datetime"
      · obtain ⟨s, t, hvs, hps⟩ := hvdt hf
        subst hvs
        refine ⟨.dt t, ?_, fun _ => ⟨s, t, rfl, hps, rfl⟩, fun h => absurd hf h⟩
        simp [dtParseStep, hf, hps, Except.map]
      · exact ⟨v, by simp [dtParseStep, hf], fun h => absurd h hf,
          fun _ => rfl⟩
    set nv : PyVal := .str (rfc3339Fmt now) with hnv
    set ps2 := alSet ps "updated" nv with hps2
    set xs2 := alSet xs "properties" (.dict ps2) with hxs2
    set acc1 := alSet acc (lastSeg f) v' with hacc1
    have hstep : ItemSerializer.indexedLoop now (f :: rest) (.dict xs) acc =
        ItemSerializer.indexedLoop now rest (.dict xs2) acc1 := by
      rw [ItemSerializer.indexedLoop]
      rw [show pySubscript (.dict xs) "properties" = .ok (.dict ps) by
        simp [pySubscript, hprops], ok_bind]
      rw [show pySubscript (.dict ps) f = .ok v by
        simp [pySubscript, hv], ok_bind]
      rw [hv', ok_bind]
      simp only [asDictE, ok_bind]
      rw [if_pos hcr]
      rw [show pySetItem (.dict xs) "properties" (.dict (alSet ps "updated"
        (.str (now_to_rfc3339_str now)))) = .ok (.dict (alSet xs "properties"
        (.dict (alSet ps "updated" (.str (now_to_rfc3339_str now)))))) from rfl,
        ok_bind]
      rfl
    have hprops2 : alGet xs2 "properties" = some (.dict ps2) := by
      rw [hxs2]
      exact alGet_alSet_self _ _ _
    have hcr2 : alHas ps2 "created" = true := by
      rw [alHas_iff] at hcr ⊢
      obtain ⟨c, hc⟩ := hcr
      exact ⟨c, by rw [hps2, alGet_alSet_ne _ _ _ _ (by decide)]; exact hc⟩
    have hall2 : ∀ f' ∈ rest, f' ≠ "created" ∧ f' ≠ "updated" ∧
        ∃ v, alGet ps2 f' = some v ∧ (f' = "datetime" → ∃ s t, v = .str s ∧
          rfc3339_str_to_datetime s = .ok t) := by
      intro f' hf'
      obtain ⟨h1, h2, w, hw, hwdt⟩ := hall f' (List.mem_cons_of_mem _ hf')
      exact ⟨h1, h2, w, by rw [hps2, alGet_alSet_ne _ _ _ _ h2]; exact hw, hwdt⟩
    obtain ⟨acc', hrun, hoth, hfields⟩ :=
      ih xs2 ps2 acc1 hprops2 hcr2 (by
        simpa using hnodup.of_cons) hall2
    refine ⟨acc', ?_, ?_, ?_⟩
    · rw [hstep, hrun]
      cases rest with
      | nil => rfl
      | cons g rest' =>
        have hred : (if (g :: rest' : List String) = [] then PyVal.dict xs2
            else PyVal.dict (alSet xs2 "properties"
              (.dict (alSet ps2 "updated" nv)))) =
            PyVal.dict (alSet xs2 "properties"
              (.dict (alSet ps2 "updated" nv))) := rfl
        rw [hred, hxs2, hps2, alSet_alSet_same, alSet_alSet_same]
        rfl
    · intro k hk
      have hk1 : k ∉ rest.map lastSeg := fun hin =>
        hk (by simp [List.map_cons]; exact Or.inr (by simpa using hin))
      have hk2 : k ≠ lastSeg f := fun heq =>
        hk (by simp [List.map_cons, heq])
      rw [hoth k hk1, hacc1, alGet_alSet_ne _ _ _ _ hk2]
    · intro f' hf'
      rcases List.mem_cons.mp hf' with heq | hf''
      · subst heq
        have hnot : lastSeg f' ∉ rest.map lastSeg := by
          have := hnodup
          simp only [List.map_cons, List.nodup_cons] at this
          exact this.1
        have hacc'f : alGet acc' (lastSeg f') = some v' := by
          rw [hoth _ hnot, hacc1, alGet_alSet_self]
        refine ⟨v, hv, ?_, ?_⟩
        · intro hf
          obtain ⟨s, t, h1, h2, h3⟩ := hv'dt hf
          exact ⟨s, t, h1, h2, by rw [hacc'f, h3]⟩
        · intro hf
          rw [hacc'f, hv'nd hf]
      · obtain ⟨w, hw, hwdt, hwnd⟩ := hfields f' hf''
        obtain ⟨_, h2, _⟩ := hall2 f' hf''
        rw [hps2, alGet_alSet_ne _ _ _ _ h2] at hw
        exact ⟨w, hw, hwdt, hwnd⟩

/-- Forward computation of the read-path overlay loop: with every configured
column readable and formattable, the loop succeeds; untouched keys keep
their value and each configured field ends up holding its formatted column
value. -/
theorem overlayLoop_computes (r : DbItem) :
    ∀ (settings : List String) (ps : List (String × PyVal)),
      settings.Nodup →
      (∀ f ∈ settings, ∃ w w', DbItem.getcol r (lastSeg f) = .ok w ∧
        dtFormatStep f w = .ok w') →
      ∃ op, ItemSerializer.overlayLoop r settings ps = .ok op ∧
        (∀ k, k ∉ settings → alGet op k = alGet ps k) ∧
        (∀ f ∈ settings, ∃ w w', DbItem.getcol r (lastSeg f) = .ok w ∧
          dtFormatStep f w = .ok w' ∧ alGet op f = some w') := by
  intro settings
  induction settings with
  | nil =>
    intro ps _ _
    exact ⟨ps, rfl, fun k _ => rfl, fun f hf => absurd hf (by simp)⟩
  | cons f rest ih =>
    intro ps hnodup hall
    obtain ⟨w, w', hw, hw'⟩ := hall f (List.mem_cons_self f rest)
    obtain ⟨op, hrun, hoth, hfields⟩ :=
      ih (alSet ps f w') hnodup.of_cons
        (fun f' hf' => hall f' (List.mem_cons_of_mem _ hf'))
    refine ⟨op, ?_, ?_, ?_⟩
    · rw [ItemSerializer.overlayLoop, hw, ok_bind, hw', ok_bind]
      exact hrun
    · intro k hk
      have hk1 : k ∉ rest := fun hin => hk (List.mem_cons_of_mem _ hin)
      have hk2 : k ≠ f := fun heq => hk (heq ▸ List.mem_cons_self f rest)
      rw [hoth k hk1, alGet_alSet_ne _ _ _ _ hk2]
    · intro f' hf'
      rcases List.mem_cons.mp hf' with heq | hf''
      · subst heq
        have hnot : f' ∉ rest := by
          simp only [List.nodup_cons] at hnodup
          exact hnodup.1
        refine ⟨w, w', hw, hw', ?_⟩
        rw [hoth _ hnot, alGet_alSet_self]
      · exact hfields f' hf''

/-! ## C1 — the Item round trip -/

/-- **C1.** For a valid dict Item — properties a dict carrying RFC 3339
string `datetime`/`created` entries and every configured indexed field, a
JSON-serializable geometry, a bbox that is null or a float sequence — with a
well-formed indexed-field configuration (distinct promoted column names that
do not collide with base columns, and not the refreshed `created`/`updated`
entries themselves), `db_to_stac ∘ stac_to_db` restores `id`, `collection`,
`geometry`, `bbox`, and every configured indexed-field value unchanged,
the `datetime` field after RFC 3339 normalization. -/
theorem item_roundtrip_restores_core_fields
    (settings : List String) (now : DT) (base_url : String) (e : Bool)
    (xs ps : List (String × PyVal))
    (idv cv sv av g bb : PyVal) (s0 cs0 : String)
    (h_props : alGet xs "properties" = some (.dict ps))
    (h_id : alGet xs "id" = some idv)
    (h_coll : alGet xs "collection" = some cv)
    (h_sv : alGet xs "stac_version" = some sv)
    (h_assets : alGet xs "assets" = some av)
    (h_geom : alGet xs "geometry" = some g)
    (h_gser : jsonSerializable g = true)
    (h_bbox : alGet xs "bbox" = some bb)
    (h_bbshape : bb = PyVal.none ∨ ∃ qs : List ℚ, bb = .list (qs.map PyVal.float))
    (h_dt : alGet ps "datetime" = some (.str s0))
    (h_dt_parse : "datetime" ∈ settings →
      ∃ t0, rfc3339_str_to_datetime s0 = .ok t0)
    (h_cr : alGet ps "created" = some (.str cs0))
    (h_all : ∀ f ∈ settings, ∃ v, alGet ps f = some v)
    (h_nc : "created" ∉ settings)
    (h_nu : "updated" ∉ settings)
    (h_nodup : (settings.map lastSeg).Nodup)
    (h_cols : ∀ f ∈ settings, lastSeg f ∉ itemBaseColumns) :
    ∃ row post os op,
      ItemSerializer.stac_to_db settings now (.dict xs) e = .ok (row, post) ∧
      ItemSerializer.db_to_stac settings row base_url = .ok (.dict os) ∧
      alGet os "id" = some idv ∧
      alGet os "collection" = some cv ∧
      alGet os "geometry" = some g ∧
      alGet os "bbox" = some bb ∧
      alGet os "properties" = some (.dict op) ∧
      (∀ f ∈ settings, ∃ v, alGet ps f = some v ∧
        (f = "datetime" → ∃ s w, v = .str s ∧ rfc3339Normalize s = .ok w ∧
          alGet op f = some (.str w)) ∧
        (f ≠ "datetime" → alGet op f = some v)) := by
  -- ### write path
  have hcrHas : alHas ps "created" = true := (alHas_iff _ _).mpr ⟨_, h_cr⟩
  have hbundle : ∀ f ∈ settings, f ≠ "created" ∧ f ≠ "updated" ∧
      ∃ v, alGet ps f = some v ∧ (f = "datetime" →
        ∃ s t, v = .str s ∧ rfc3339_str_to_datetime s = .ok t) := by
    intro f hf
    refine ⟨fun h => h_nc (h ▸ hf), fun h => h_nu (h ▸ hf), ?_⟩
    obtain ⟨v, hv⟩ := h_all f hf
    refine ⟨v, hv, ?_⟩
    intro hfd
    subst hfd
    rw [h_dt] at hv
    injection hv with hv'
    obtain ⟨t0, ht0⟩ := h_dt_parse hf
    exact ⟨s0, t0, hv'.symm, ht0⟩
  obtain ⟨acc', hloop, hacc_oth, hacc_fields⟩ :=
    indexedLoop_computes now settings xs ps [] h_props hcrHas h_nodup hbundle
  -- the final stac_data dict and its properties, uniformly over settings
  obtain ⟨xs₂, psX, hloop2, hX_props, hX_oth, hpsX_oth⟩ :
      ∃ xs₂ psX,
        ItemSerializer.indexedLoop now settings (.dict xs) [] =
          .ok (acc', .dict xs₂) ∧
        alGet xs₂ "properties" = some (.dict psX) ∧
        (∀ k, k ≠ "properties" → alGet xs₂ k = alGet xs k) ∧
        (∀ k, k ≠ "updated" → alGet psX k = alGet ps k) := by
    by_cases hs : settings = []
    · refine ⟨xs, ps, ?_, h_props, fun k _ => rfl, fun k _ => rfl⟩
      rw [hloop, if_pos hs]
    · refine ⟨alSet xs "properties"
          (.dict (alSet ps "updated" (.str (rfc3339Fmt now)))),
        alSet ps "updated" (.str (rfc3339Fmt now)), ?_,
        alGet_alSet_self _ _ _,
        fun k hk => alGet_alSet_ne _ _ _ _ hk,
        fun k hk => alGet_alSet_ne _ _ _ _ hk⟩
      rw [hloop, if_neg hs]
  have hX_geom : alGet xs₂ "geometry" = some g := by
    rw [hX_oth _ (by decide), h_geom]
  have hX_id : alGet xs₂ "id" = some idv := by
    rw [hX_oth _ (by decide), h_id]
  have hX_coll : alGet xs₂ "collection" = some cv := by
    rw [hX_oth _ (by decide), h_coll]
  have hX_sv : alGet xs₂ "stac_version" = some sv := by
    rw [hX_oth _ (by decide), h_sv]
  have hX_assets : alGet xs₂ "assets" = some av := by
    rw [hX_oth _ (by decide), h_assets]
  have hX_bbox : alGet xs₂ "bbox" = some bb := by
    rw [hX_oth _ (by decide), h_bbox]
  have hpsX_dt : alGet psX "datetime" = some (.str s0) := by
    rw [hpsX_oth _ (by decide), h_dt]
  have hpsX_cr : alGet psX "created" = some (.str cs0) := by
    rw [hpsX_oth _ (by decide), h_cr]
  -- geometry survives dump + decode + load
  obtain ⟨gr, hgr, hload⟩ : ∃ gr, dumpGeometry g = .ok gr ∧
      loadGeometry (decodeWkb gr) = .ok g := by
    by_cases hgn : g = PyVal.none
    · subst hgn
      exact ⟨PyVal.none, rfl, rfl⟩
    · refine ⟨.jsonText g, ?_, rfl⟩
      rw [dumpGeometry_ne_none g hgn, jsonDumps, if_pos h_gser]
  set se : PyVal := (alGet xs₂ "stac_extensions").getD .none with hse
  set row : DbItem :=
    ⟨idv, cv, sv, se, gr, bb, .dict psX, av, PyVal.none, acc'⟩ with hrow
  have hcore : ItemSerializer.stacToDbCore settings now (.dict xs) e =
      .ok (row, .dict xs₂) := by
    rw [ItemSerializer.stacToDbCore, hloop2, ok_bind]
    simp only
    rw [show pySubscript (.dict xs₂) "geometry" = .ok g by
      simp [pySubscript, hX_geom], ok_bind]
    rw [hgr, ok_bind]
    rw [show pySubscript (.dict xs₂) "properties" = .ok (.dict psX) by
      simp [pySubscript, hX_props], ok_bind]
    rw [show pySubscript (.dict psX) "datetime" = .ok (.str s0) by
      simp [pySubscript, hpsX_dt], ok_bind]
    rw [stringifyDtEntry_not_dt _ _ _ _ (fun t ht => PyVal.noConfusion ht),
      ok_bind]
    simp only
    rw [show pySubscript (.dict psX) "created" = .ok (.str cs0) by
      simp [pySubscript, hpsX_cr], ok_bind]
    rw [stringifyDtEntry_not_dt _ _ _ _ (fun t ht => PyVal.noConfusion ht),
      ok_bind]
    simp only
    rw [show pySubscript (.dict xs₂) "id" = .ok idv by
      simp [pySubscript, hX_id], ok_bind]
    rw [show pySubscript (.dict xs₂) "collection" = .ok cv by
      simp [pySubscript, hX_coll], ok_bind]
    rw [show pySubscript (.dict xs₂) "stac_version" = .ok sv by
      simp [pySubscript, hX_sv], ok_bind]
    rw [pyGetD_dict, ok_bind]
    rw [show pyGetD (.dict xs₂) "bbox" = .ok bb by
      rw [pyGetD_dict, hX_bbox]; rfl, ok_bind]
    rw [show pySubscript (.dict xs₂) "assets" = .ok av by
      simp [pySubscript, hX_assets], ok_bind]
    rfl
  have hcall : ItemSerializer.stac_to_db settings now (.dict xs) e =
      .ok (row, .dict xs₂) := by
    rw [ItemSerializer.stac_to_db,
      show normalizeInput (.dict xs) = .ok (.dict xs) from rfl, ok_bind,
      hcore, ok_bind]
    rfl
  -- ### read path
  have hoverlayhyp : ∀ f ∈ settings, ∃ w w',
      DbItem.getcol row (lastSeg f) = .ok w ∧ dtFormatStep f w = .ok w' := by
    intro f hf
    obtain ⟨v, hv, hvdt, hvnd⟩ := hacc_fields f hf
    by_cases hfd : f = "datetime"
    · obtain ⟨s, t, hvs, hts, hat⟩ := hvdt hfd
      refine ⟨.dt t, .str (rfc3339Fmt t), ?_, ?_⟩
      · exact getcol_indexed row _ (h_cols f hf) _ hat
      · simp [dtFormatStep, hfd, datetime_to_str]
    · exact ⟨v, v, getcol_indexed row _ (h_cols f hf) _ (hvnd hfd),
        by simp [dtFormatStep, hfd]⟩
  obtain ⟨op, hoverlay, hop_oth, hop_fields⟩ :=
    overlayLoop_computes row settings psX (h_nodup.of_map) hoverlayhyp
  have hbb' : bboxFloats bb = .ok bb := by
    rcases h_bbshape with h | ⟨qs, h⟩
    · subst h
      rfl
    · subst h
      simp only [bboxFloats]
      rw [exceptMap_pyFloat_floats, ok_bind]
  have hdb : ItemSerializer.db_to_stac settings row base_url =
      .ok (.dict [("type", .str "Feature"), ("stac_version", sv),
        ("stac_extensions", if pyTruthy se then se else PyVal.list []),
        ("id", idv), ("collection", cv), ("geometry", g), ("bbox", bb),
        ("properties", .dict op),
        ("links", .list (ItemLinks.create_links cv idv base_url)),
        ("assets", av)]) := by
    rw [ItemSerializer.db_to_stac,
      show copyProps row.properties = .ok psX from rfl, ok_bind,
      hoverlay, ok_bind]
    simp only
    rw [show appendResolved
        (ItemLinks.create_links row.collection_id row.id base_url)
        row.links base_url = .ok
        (ItemLinks.create_links row.collection_id row.id base_url) from rfl,
      ok_bind]
    simp only
    rw [show decodeWkb row.geometry = decodeWkb gr from rfl, hload, ok_bind,
      hbb', ok_bind]
    rfl
  refine ⟨row, .dict xs₂, _, op, hcall, hdb, ?_, ?_, ?_, ?_, ?_, ?_⟩
  · simp [alGet]
  · simp [alGet]
  · simp [alGet]
  · simp [alGet]
  · simp [alGet]
  · intro f hf
    obtain ⟨v, hv, hvdt, hvnd⟩ := hacc_fields f hf
    obtain ⟨w, w', hw, hw', hop⟩ := hop_fields f hf
    refine ⟨v, hv, ?_, ?_⟩
    · intro hfd
      obtain ⟨s, t, hvs, hts, hat⟩ := hvdt hfd
      have hw2 := getcol_indexed row _ (h_cols f hf) _ hat
      rw [hw] at hw2
      injection hw2 with hw2'
      rw [hw2', hfd] at hw'
      have hfmt : dtFormatStep "datetime" (.dt t) = .ok (.str (rfc3339Fmt t)) := by
        simp [dtFormatStep, datetime_to_str]
      rw [hfmt] at hw'
      injection hw' with hw''
      refine ⟨s, rfc3339Fmt t, hvs, ?_, ?_⟩
      · rw [rfc3339Normalize, hts]
        rfl
      · rw [hop, ← hw'']
    · intro hfd
      have hw2 := getcol_indexed row _ (h_cols f hf) _ (hvnd hfd)
      rw [hw] at hw2
      injection hw2 with hw2'
      have hfmt : dtFormatStep f w = .ok w := by
        simp [dtFormatStep, hfd]
      rw [hfmt] at hw'
      injection hw' with hw''
      rw [hop, ← hw'', hw2']

/-- **C1 witness.** The valid concrete Item, with `datetime` and the
extension-namespaced `eo:cloud_cover` configured as indexed fields. -/
theorem item_roundtrip_restores_core_fields_witness :
    ∃ row post os op,
      ItemSerializer.stac_to_db ["datetime", "eo:cloud_cover"] wNow
        (.dict wItem) false = .ok (row, post) ∧
      ItemSerializer.db_to_stac ["datetime", "eo:cloud_cover"] row
        "http://api" = .ok (.dict os) ∧
      alGet os "id" = some (.str "a") ∧
      alGet os "collection" = some (.str "c1") ∧
      alGet os "geometry" = some wGeom ∧
      alGet os "bbox" =
        some (.list [.float 1, .float 2, .float 1, .float 2]) ∧
      alGet os "properties" = some (.dict op) ∧
      (∀ f ∈ (["datetime", "eo:cloud_cover"] : List String), ∃ v,
        alGet [("datetime", PyVal.str "2020-01-01T00:00:00Z"),
               ("created", PyVal.str "2019-01-01T00:00:00Z"),
               ("eo:cloud_cover", PyVal.int 10)] f = some v ∧
        (f = "datetime" → ∃ s w, v = .str s ∧ rfc3339Normalize s = .ok w ∧
          alGet op f = some (.str w)) ∧
        (f ≠ "datetime" → alGet op f = some v)) := by
  exact item_roundtrip_restores_core_fields ["datetime", "eo:cloud_cover"]
    wNow "http://api" false wItem
    [("datetime", PyVal.str "2020-01-01T00:00:00Z"),
     ("created", PyVal.str "2019-01-01T00:00:00Z"),
     ("eo:cloud_cover", PyVal.int 10)]
    (.str "a") (.str "c1") (.str "1.0.0") (.dict []) wGeom
    (.list [.float 1, .float 2, .float 1, .float 2])
    "2020-01-01T00:00:00Z" "2019-01-01T00:00:00Z"
    rfl rfl rfl rfl rfl rfl rfl rfl
    (Or.inr ⟨[1, 2, 1, 2], rfl⟩) rfl
    (fun _ => ⟨⟨2020, 1, 1, 0, 0, 0⟩, rfl⟩) rfl
    (by intro f hf; fin_cases hf <;> exact ⟨_, rfl⟩)
    (by decide) (by decide) (by decide)
    (by intro f hf; fin_cases hf <;> decide)
